import Mathlib

/-!
Verification development for the AdaptiveAutomation add-on core
(`app/user_action_model.py`, `app/routine_patterns.py`, `app/sequence_patterns.py`).

Conventions of the shallow embedding:
* Python `dict`s are insertion-ordered association lists (`dlookup` / `dset` /
  `dupd` mirror lookup, `d[k] = v`, and the read-modify-write idiom).
* Python `set`s of calendar-day keys are duplicate-free lists built with `sadd`;
  only their cardinality is ever consumed, matching the source.
* A `datetime` is a count of seconds; `weekday`/`hour`/`date()` become
  arithmetic on it (1970-01-01 was a Thursday, Python weekday 3).
* Python floats are modelled as exact rationals; `round` is round-half-to-even
  (`rhe`), as in Python.
-/

namespace SmartHome

/-- Lookup in an insertion-ordered association list (Python `d.get(k)`). -/
def dlookup {K V : Type} [DecidableEq K] (k : K) : List (K × V) → Option V
  | [] => none
  | kv :: rest => if kv.1 = k then some kv.2 else dlookup k rest

/-- Python `d[k] = v`: update in place if the key exists, else append. -/
def dset {K V : Type} [DecidableEq K] : List (K × V) → K → V → List (K × V)
  | [], k, v => [(k, v)]
  | kv :: rest, k, v => if kv.1 = k then (k, v) :: rest else kv :: dset rest k v

/-- The Python idiom `if k not in d: d[k] = dflt` followed by `d[k] = f (d[k])`. -/
def dupd {K V : Type} [DecidableEq K] (m : List (K × V)) (k : K) (dflt : V) (f : V → V) :
    List (K × V) :=
  dset m k (f ((dlookup k m).getD dflt))

/-- Python `s.add a` on a set modelled as a duplicate-free list. -/
def sadd {A : Type} [DecidableEq A] (s : List A) (a : A) : List A :=
  if a ∈ s then s else s ++ [a]

/-- Python `str.strip()` (both-ends whitespace trim). -/
def pyStrip (s : String) : String :=
  ⟨((s.data.dropWhile Char.isWhitespace).reverse.dropWhile Char.isWhitespace).reverse⟩

/-- Python `str.lower()` (per-character lowering, as Lean's `Char.toLower`). -/
def pyLower (s : String) : String :=
  ⟨s.data.map Char.toLower⟩

/-- The source's pervasive `(value or "").strip().lower()` normalisation. -/
def normState (s : String) : String := pyLower (pyStrip s)

/-- Python `needle in hay` substring test. -/
def strContains (hay needle : String) : Bool :=
  (List.range (hay.data.length + 1)).any fun i => needle.data.isPrefixOf (hay.data.drop i)

/-- Calendar-day key of a timestamp (stands for `ts.date().isoformat()`,
which is injective on days). -/
def dayKey (ts : Nat) : Nat := ts / 86400

/-- Python `datetime.weekday()` (Monday = 0) for a seconds timestamp. -/
def weekdayOf (ts : Nat) : Nat := (ts / 86400 + 3) % 7

/-- Python `datetime.hour` for a seconds timestamp. -/
def hourOf (ts : Nat) : Nat := ts % 86400 / 3600

/-- Python `datetime.minute` for a seconds timestamp. -/
def minuteOf (ts : Nat) : Nat := ts % 3600 / 60

/-- Kernel-computable rational arithmetic. Core `Rat.add/sub/mul/inv` are
`@[irreducible]`, which blocks `decide`-style evaluation; these equivalents
(proved equal to the standard operations below) go through `Rat.divInt`. -/
def qmul (a b : ℚ) : ℚ := Rat.divInt (a.num * b.num) ((a.den : Int) * (b.den : Int))

def qdiv (a b : ℚ) : ℚ := Rat.divInt (a.num * (b.den : Int)) ((a.den : Int) * b.num)

def qadd (a b : ℚ) : ℚ :=
  Rat.divInt (a.num * (b.den : Int) + b.num * (a.den : Int)) ((a.den : Int) * (b.den : Int))

def qsub (a b : ℚ) : ℚ := qadd a (-b)

def qabs (a : ℚ) : ℚ := if a < 0 then -a else a

/-- The rational literal `n / d`. -/
def qlit (n : Int) (d : Nat) : ℚ := mkRat n d

/-- Python `round` on an exact rational: round half to even. -/
def rhe (q : ℚ) : Int :=
  let f : Int := ⌊q⌋
  let r : ℚ := qsub q (f : ℚ)
  if r < qlit 1 2 then f
  else if qlit 1 2 < r then f + 1
  else if f % 2 = 0 then f else f + 1

/-- Python `round(x, 4)` as used for reported confidences. -/
def round4 (q : ℚ) : ℚ := qdiv ((rhe (qmul q 10000) : Int) : ℚ) 10000

/-- Value of a list of decimal digit characters. -/
def digitsVal (cs : List Char) : Nat :=
  cs.foldl (fun a c => a * 10 + (c.toNat - 48)) 0

/-- Python `int(str)` on the forms the add-on feeds it: optional sign and
decimal digits, surrounding whitespace tolerated. -/
def pyIntOfString? (s : String) : Option Int :=
  match (pyStrip s).data with
  | '-' :: ds => if ds ≠ [] ∧ ds.all Char.isDigit then some (-(digitsVal ds : Int)) else none
  | '+' :: ds => if ds ≠ [] ∧ ds.all Char.isDigit then some ((digitsVal ds : Int)) else none
  | ds => if ds ≠ [] ∧ ds.all Char.isDigit then some ((digitsVal ds : Int)) else none

/-- Python `float(str)` on plain decimal literals (optional sign, digits,
optional fraction); exotic forms (exponents, inf/nan) are out of the model. -/
def parseFloat? (s : String) : Option ℚ :=
  let t := (pyStrip s).data
  let su : ℚ × List Char :=
    match t with
    | c :: rest => if c = '-' then (-1, rest) else if c = '+' then (1, rest) else (1, t)
    | [] => (1, t)
  let ip := su.2.takeWhile Char.isDigit
  match su.2.drop ip.length with
  | [] => if ip = [] then none else some (qmul su.1 (digitsVal ip : ℚ))
  | c :: frac =>
    if c = '.' ∧ frac.all Char.isDigit ∧ (ip ≠ [] ∨ frac ≠ []) then
      some (qmul su.1
        (qadd (digitsVal ip : ℚ) (qdiv (digitsVal frac : ℚ) ((10 ^ frac.length : Nat) : ℚ))))
    else none

/-- A `(weekday, hour)` bucket; `Int` because deserialisation parses
arbitrary integers out of the persisted `"w:h"` keys. -/
abbrev Slot := Int × Int

/-- `UserActionModel._slot`. -/
def slotOf (ts : Nat) : Slot := ((weekdayOf ts : Int), (hourOf ts : Int))

end SmartHome

namespace SmartHome

/-- `user_action_model.ActionEvent`. -/
structure ActionEvent where
  entity_id : String
  from_state : String
  to_state : String
  timestamp : Nat
deriving DecidableEq, Repr

/-- `UserActionModel` aggregate state. Counters are `Int` because
deserialisation runs Python `int()` over arbitrary payload values. -/
structure UserActionModel where
  min_support : Int
  min_confidence : ℚ
  slot_total_actions : List (Slot × Int)
  slot_entity_total_count : List (Slot × List (String × Int))
  slot_entity_state_count : List (Slot × List (String × List (String × Int)))
  slot_entity_day_count : List (Slot × List (String × Int))
  slot_entity_state_day_count : List (Slot × List (String × List (String × Int)))
  global_total_actions : Int
  global_entity_total_count : List (String × Int)
  global_entity_state_count : List (String × List (String × Int))
  global_entity_day_count : List (String × Int)
  global_entity_state_day_count : List (String × List (String × Int))
  trained_actions : Int
deriving DecidableEq, Repr

/-- `UserActionModel._is_relevant_state`. -/
def isRelevantState (state : String) : Bool :=
  let value := normState state
  if value = "" ∨ value = "unknown" ∨ value = "unavailable" ∨ value = "none" then false
  else true

/-- The per-slot / global day-key sets accumulated inside `fit` before being
collapsed to cardinalities. -/
structure FitSeen where
  slot_entity_days : List (Slot × List (String × List Nat))
  slot_entity_state_days : List (Slot × List (String × List (String × List Nat)))
  global_entity_days : List (String × List Nat)
  global_entity_state_days : List (String × List (String × List Nat))
deriving Repr

def emptySeen : FitSeen := ⟨[], [], [], []⟩

/-- The body of `fit`'s event loop, one event at a time. -/
def fitStep (acc : UserActionModel × FitSeen) (ev : ActionEvent) : UserActionModel × FitSeen :=
  let m := acc.1
  let sn := acc.2
  let to_state := normState ev.to_state
  if ¬ isRelevantState to_state then acc
  else
    let slot := slotOf ev.timestamp
    let day := dayKey ev.timestamp
    let sta := dupd m.slot_total_actions slot 0 (· + 1)
    let setc := dupd m.slot_entity_total_count slot [] (fun em => dupd em ev.entity_id 0 (· + 1))
    let sesc := dupd m.slot_entity_state_count slot []
      (fun em => dupd em ev.entity_id [] (fun sm => dupd sm to_state 0 (· + 1)))
    let sed := dupd sn.slot_entity_days slot []
      (fun em => dupd em ev.entity_id [] (fun s => sadd s day))
    let sesd := dupd sn.slot_entity_state_days slot []
      (fun em => dupd em ev.entity_id [] (fun sm => dupd sm to_state [] (fun s => sadd s day)))
    let getc := dupd m.global_entity_total_count ev.entity_id 0 (· + 1)
    let gesc := dupd m.global_entity_state_count ev.entity_id []
      (fun sm => dupd sm to_state 0 (· + 1))
    let ged := dupd sn.global_entity_days ev.entity_id [] (fun s => sadd s day)
    let gesd := dupd sn.global_entity_state_days ev.entity_id []
      (fun sm => dupd sm to_state [] (fun s => sadd s day))
    let m := { m with
      slot_total_actions := sta, slot_entity_total_count := setc, slot_entity_state_count := sesc
      global_entity_total_count := getc, global_entity_state_count := gesc
      global_total_actions := m.global_total_actions + 1
      trained_actions := m.trained_actions + 1 }
    let sn := { sn with
      slot_entity_days := sed, slot_entity_state_days := sesd
      global_entity_days := ged, global_entity_state_days := gesd }
    (m, sn)

/-- The full counter reset `fit` performs before its event loop. -/
def clearedModel (m0 : UserActionModel) : UserActionModel :=
  { m0 with
    slot_total_actions := [], slot_entity_total_count := [], slot_entity_state_count := []
    slot_entity_day_count := [], slot_entity_state_day_count := []
    global_total_actions := 0, global_entity_total_count := [], global_entity_state_count := []
    global_entity_day_count := [], global_entity_state_day_count := []
    trained_actions := 0 }

/-- `UserActionModel.fit`: full recompute of every counter from `events`. -/
def UserActionModel.fit (m0 : UserActionModel) (events : List ActionEvent) : UserActionModel :=
  let out := events.foldl fitStep (clearedModel m0, emptySeen)
  { out.1 with
    slot_entity_day_count :=
      out.2.slot_entity_days.map fun p => (p.1, p.2.map fun q => (q.1, (q.2.length : Int)))
    slot_entity_state_day_count :=
      out.2.slot_entity_state_days.map fun p =>
        (p.1, p.2.map fun q => (q.1, q.2.map fun r => (r.1, (r.2.length : Int))))
    global_entity_day_count :=
      out.2.global_entity_days.map fun q => (q.1, (q.2.length : Int))
    global_entity_state_day_count :=
      out.2.global_entity_state_days.map fun q =>
        (q.1, q.2.map fun r => (r.1, (r.2.length : Int))) }

end SmartHome

namespace SmartHome

/-- One entry of `predict`'s result list. -/
structure Prediction where
  entity_id : String
  state : String
  support : Int
  confidence : ℚ
  source : String
deriving DecidableEq, Repr

/-- Strict lexicographic order on the Python sort key `(confidence, support)`. -/
def scoreLt (a b : ℚ × Int) : Prop := a.1 < b.1 ∨ (a.1 = b.1 ∧ a.2 < b.2)

/-- Non-strict lexicographic order on the sort key `(confidence, support)`. -/
def scoreLe (a b : ℚ × Int) : Prop := a.1 < b.1 ∨ (a.1 = b.1 ∧ a.2 ≤ b.2)

instance (a b : ℚ × Int) : Decidable (scoreLt a b) := by unfold scoreLt; infer_instance

instance (a b : ℚ × Int) : Decidable (scoreLe a b) := by unfold scoreLe; infer_instance

def predScore (p : Prediction) : ℚ × Int := (p.confidence, p.support)

/-- "`a` may precede `b`" for Python's stable `sort(key=(confidence, support),
reverse=True)`. -/
def predGe (a b : Prediction) : Prop := scoreLe (predScore b) (predScore a)

instance (a b : Prediction) : Decidable (predGe a b) := by unfold predGe; infer_instance

def sortPreds (l : List Prediction) : List Prediction := List.insertionSort predGe l

/-- `predict`'s inner `collect_from_slot`. -/
def collectFromSlot (m : UserActionModel) (slot : Slot) (currSupport : Int) (currConf : ℚ)
    (source : String) : List Prediction :=
  match dlookup slot m.slot_entity_state_day_count with
  | none => []
  | some entMap =>
    let slotDays := (dlookup slot m.slot_entity_day_count).getD []
    entMap.flatMap fun p =>
      let entityTotal := (dlookup p.1 slotDays).getD 0
      if entityTotal ≤ 0 then []
      else
        p.2.filterMap fun q =>
          let confidence : ℚ := qdiv (q.2 : ℚ) (entityTotal : ℚ)
          if currSupport ≤ q.2 ∧ currConf ≤ confidence then
            some ⟨p.1, q.1, q.2, round4 confidence, source⟩
          else none

/-- `predict`'s inner `collect_global`. -/
def collectGlobal (m : UserActionModel) (currSupport : Int) (currConf : ℚ)
    (source : String) : List Prediction :=
  m.global_entity_state_day_count.flatMap fun p =>
    let entityTotal := (dlookup p.1 m.global_entity_day_count).getD 0
    if entityTotal ≤ 0 then []
    else
      p.2.filterMap fun q =>
        let confidence : ℚ := qdiv (q.2 : ℚ) (entityTotal : ℚ)
        if currSupport ≤ q.2 ∧ currConf ≤ confidence then
          some ⟨p.1, q.1, q.2, round4 confidence, source⟩
        else none

/-- One step of the `one_per_entity` deduplication loop over the sorted list. -/
def dedupStep (best : List (String × Prediction)) (item : Prediction) :
    List (String × Prediction) :=
  match dlookup item.entity_id best with
  | none => dset best item.entity_id item
  | some current =>
    if scoreLt (predScore current) (predScore item) then dset best item.entity_id item else best

/-- The tail of `predict` after the cascade: sort, optional per-entity
deduplication, truncation to `max 1 limit`. -/
def finishPredict (cascade : List Prediction) (onePerEntity : Bool) (limit : Int) :
    List Prediction :=
  let sorted := sortPreds cascade
  let final := if onePerEntity then sortPreds ((sorted.foldl dedupStep []).map Prod.snd) else sorted
  final.take (max 1 limit).toNat

/-- The four-tier cascade of `predict` (source lines 218-228). -/
def cascadePreds (m : UserActionModel) (slot : Slot) (supportThreshold : Int)
    (confidenceThreshold : ℚ) (allowRelaxedFallback : Bool) : List Prediction :=
  let p1 := collectFromSlot m slot supportThreshold confidenceThreshold "time_slot"
  let p2 :=
    if p1 = [] ∧ allowRelaxedFallback then
      collectFromSlot m slot 1 confidenceThreshold "time_slot_relaxed_support"
    else p1
  let p3 :=
    if p2 = [] then collectGlobal m supportThreshold confidenceThreshold "global_fallback" else p2
  if p3 = [] ∧ allowRelaxedFallback then
    collectGlobal m 1 confidenceThreshold "global_fallback_relaxed_support"
  else p3

/-- `UserActionModel.predict`. -/
def UserActionModel.predict (m : UserActionModel) (when : Nat) (limit : Int)
    (minSupport : Option Int) (minConfidence : Option ℚ) (allowRelaxedFallback : Bool)
    (onePerEntity : Bool) : List Prediction :=
  let supportThreshold := minSupport.getD m.min_support
  let confidenceThreshold := minConfidence.getD m.min_confidence
  let slot := slotOf when
  finishPredict (cascadePreds m slot supportThreshold confidenceThreshold allowRelaxedFallback)
    onePerEntity limit

/-- Result shape of `UserActionModel.stats`. -/
structure ModelStats where
  trained_actions : Int
  slot_count : Nat
  entity_count : Nat
  global_total_actions : Int
  min_support : Int
  min_confidence : ℚ
deriving DecidableEq, Repr

/-- `UserActionModel.stats`. -/
def UserActionModel.stats (m : UserActionModel) : ModelStats :=
  ⟨m.trained_actions, m.slot_total_actions.length, m.global_entity_state_count.length,
    m.global_total_actions, m.min_support, m.min_confidence⟩

/-- `UserActionModel.set_thresholds`. -/
def UserActionModel.set_thresholds (m : UserActionModel) (minSupport : Int)
    (minConfidence : ℚ) : UserActionModel :=
  { m with min_support := max 1 minSupport
           min_confidence := max 0 (min 1 minConfidence) }

end SmartHome

namespace SmartHome

/-- A raw Home Assistant state snapshot at the extraction boundary.
The two timestamp fields encode Python's access-then-parse sequence:
`none` is a missing (or falsy) field, `some none` a present but unparsable
timestamp string, `some (some ts)` a present string parsing to `ts`. -/
structure RawSnapshot where
  entity_id : String
  state : String
  last_changed : Option (Option Nat)
  last_updated : Option (Option Nat)
deriving DecidableEq, Repr

/-- `raw.get("last_changed") or raw.get("last_updated")`, then parse. -/
def rawTs (r : RawSnapshot) : Option Nat :=
  match r.last_changed with
  | some v => v
  | none =>
    match r.last_updated with
    | some v => v
    | none => none

/-- The per-entity record `action_events_from_states` accumulates. -/
structure SnapRec where
  entity_id : String
  state : String
  timestamp : Nat
deriving DecidableEq, Repr

/-- Validation part of `action_events_from_states`'s first loop: entity id
stripped, must be nonempty with a dot, timestamp must parse; state stripped
(case preserved at this stage). -/
def validSnap (raw : RawSnapshot) : Option SnapRec :=
  let entity_id := pyStrip raw.entity_id
  if entity_id = "" ∨ ¬ entity_id.data.contains '.' then none
  else
    match rawTs raw with
    | none => none
    | some ts => some ⟨entity_id, pyStrip raw.state, ts⟩

/-- The `by_entity` grouping dict after the first loop. -/
def groupByEntity (snaps : List RawSnapshot) : List (String × List SnapRec) :=
  snaps.foldl
    (fun acc raw =>
      match validSnap raw with
      | none => acc
      | some sr => dupd acc sr.entity_id [] (fun l => l ++ [sr]))
    []

def snapLe (a b : SnapRec) : Prop := a.timestamp ≤ b.timestamp

instance (a b : SnapRec) : Decidable (snapLe a b) := by unfold snapLe; infer_instance

instance : IsTotal SnapRec snapLe := ⟨fun a b => Nat.le_total a.timestamp b.timestamp⟩

instance : IsTrans SnapRec snapLe := ⟨fun _ _ _ hab hbc => Nat.le_trans hab hbc⟩

/-- Adjacent differing-state pairs of one entity's time-sorted snapshots. -/
def adjacentEvents (entity_id : String) (items : List SnapRec) : List ActionEvent :=
  (items.zip (items.drop 1)).filterMap fun pr =>
    if pr.1.state = pr.2.state then none
    else some ⟨entity_id, pr.1.state, pr.2.state, pr.2.timestamp⟩

/-- `user_action_model.action_events_from_states`. -/
def action_events_from_states (snaps : List RawSnapshot) : List ActionEvent :=
  (groupByEntity snaps).flatMap fun p => adjacentEvents p.1 (List.insertionSort snapLe p.2)

end SmartHome

namespace RoutinePatterns

open SmartHome

/-- `routine_patterns.Event`. -/
structure Event where
  entity_id : String
  domain : String
  state : String
  timestamp : Nat
deriving DecidableEq, Repr

/-- `entity_id.split(".", 1)[0]`. -/
def domainOf (e : String) : String := ⟨e.data.takeWhile (· ≠ '.')⟩

def evLe (a b : Event) : Prop := a.timestamp ≤ b.timestamp

instance (a b : Event) : Decidable (evLe a b) := by unfold evLe; infer_instance

/-- `routine_patterns._to_events`: validate, normalise, sort by timestamp. -/
def toEvents (states : List RawSnapshot) : List Event :=
  let unsorted := states.filterMap fun item =>
    let entity_id := pyStrip item.entity_id
    if ¬ entity_id.data.contains '.' then none
    else
      match rawTs item with
      | none => none
      | some ts => some ⟨entity_id, domainOf entity_id, normState item.state, ts⟩
  List.insertionSort evLe unsorted

/-- `routine_patterns._is_arrival`. -/
def isArrival (ev : Event) : Bool :=
  ev.domain == "device_tracker" && (ev.state == "home" || ev.state == "дом")

/-- `routine_patterns._is_door_open`. -/
def isDoorOpen (ev : Event) : Bool :=
  (ev.domain == "binary_sensor" || ev.domain == "lock" || ev.domain == "sensor")
    && (strContains ev.entity_id "door" || strContains ev.entity_id "entry"
        || strContains ev.entity_id "front")
    && (ev.state == "on" || ev.state == "open" || ev.state == "unlocked")

/-- `routine_patterns._is_light_on`. -/
def isLightOn (ev : Event) : Bool :=
  ev.domain == "light" && ev.state == "on"

/-- The scanning loop of `routine_patterns._find_first`, over the suffix of the
event list starting at the current index. -/
def findFirstAux (startTs endTs : Nat) (p : Event → Bool) :
    List Event → Nat → Option Event × Nat
  | [], idx => (none, idx)
  | ev :: rest, idx =>
    if endTs < ev.timestamp then (none, idx)
    else if startTs ≤ ev.timestamp ∧ p ev then (some ev, idx)
    else findFirstAux startTs endTs p rest (idx + 1)

/-- `routine_patterns._find_first`. -/
def findFirst (events : List Event) (startIdx : Nat) (startTs endTs : Nat)
    (p : Event → Bool) : Option Event × Nat :=
  findFirstAux startTs endTs p (events.drop startIdx) startIdx

/-- `routine_patterns.ArrivalChain`. -/
structure ArrivalChain where
  arrival_entity : String
  door_entity : String
  light_entity : String
  arrival_at : Nat
  door_at : Nat
  light_at : Nat
deriving DecidableEq, Repr

/-- The chain-collection loop of `find_arrival_chains` over an event list. -/
def chainsFromEvents (events : List Event) (arrivalToDoorMinutes doorToLightMinutes : Nat) :
    List ArrivalChain :=
  events.enum.filterMap fun pr =>
    let i := pr.1
    let ev := pr.2
    if ¬ isArrival ev then none
    else
      match findFirst events i ev.timestamp (ev.timestamp + arrivalToDoorMinutes * 60) isDoorOpen with
      | (none, _) => none
      | (some doorEv, doorIdx) =>
        match findFirst events doorIdx doorEv.timestamp
            (doorEv.timestamp + doorToLightMinutes * 60) isLightOn with
        | (none, _) => none
        | (some lightEv, _) =>
          some ⟨ev.entity_id, doorEv.entity_id, lightEv.entity_id,
            ev.timestamp, doorEv.timestamp, lightEv.timestamp⟩

/-- `routine_patterns.find_arrival_chains`. -/
def find_arrival_chains (states : List RawSnapshot)
    (arrivalToDoorMinutes doorToLightMinutes : Nat) : List ArrivalChain :=
  chainsFromEvents (toEvents states) arrivalToDoorMinutes doorToLightMinutes

end RoutinePatterns

namespace RoutinePatterns

open SmartHome

/-- Python `f"{n:02d}"` for the hour/minute values in play. -/
def two (n : Nat) : String := if n < 10 then "0" ++ toString n else toString n

/-- One entry of `build_routine_suggestions`'s result list. -/
structure RoutineSuggestion where
  title : String
  arrival_entity : String
  door_entity : String
  light_entity : String
  typical_arrival_time : String
  support_days : Nat
  arrival_days : Nat
  confidence : ℚ
  automation_yaml : String
  type : String
deriving DecidableEq, Repr

/-- The generated YAML block of a routine suggestion. -/
def routineYaml (aliasTitle arrival_entity door_entity light_entity : String) : String :=
  "alias: \"" ++ aliasTitle ++ "\"\n" ++
  "trigger:\n" ++
  "  - platform: state\n" ++
  "    entity_id: " ++ arrival_entity ++ "\n" ++
  "    to: home\n" ++
  "condition:\n" ++
  "  - condition: state\n" ++
  "    entity_id: " ++ door_entity ++ "\n" ++
  "    state: 'on'\n" ++
  "action:\n" ++
  "  - service: light.turn_on\n" ++
  "    target:\n" ++
  "      entity_id: " ++ light_entity ++ "\n" ++
  "mode: single\n"

def suggGe (a b : RoutineSuggestion) : Prop :=
  scoreLe ((b.confidence, (b.support_days : Int))) ((a.confidence, (a.support_days : Int)))

instance (a b : RoutineSuggestion) : Decidable (suggGe a b) := by unfold suggGe; infer_instance

/-- `routine_patterns.build_routine_suggestions`. -/
def build_routine_suggestions (states : List RawSnapshot) (minSupportDays : Nat)
    (minConfidence : ℚ) (arrivalToDoorMinutes doorToLightMinutes : Nat) :
    List RoutineSuggestion :=
  let chains := find_arrival_chains states arrivalToDoorMinutes doorToLightMinutes
  if chains = [] then []
  else
    let arrivalDaysByTracker : List (String × List Nat) :=
      chains.foldl (fun acc c => dupd acc c.arrival_entity [] (fun s => sadd s (dayKey c.arrival_at))) []
    let grouped : List ((String × String × String) × List ArrivalChain) :=
      chains.foldl
        (fun acc c => dupd acc (c.arrival_entity, c.door_entity, c.light_entity) [] (fun l => l ++ [c]))
        []
    let suggestions := grouped.filterMap fun g =>
      let arrival_entity := g.1.1
      let door_entity := g.1.2.1
      let light_entity := g.1.2.2
      let items := g.2
      let matchedDays : List Nat := items.foldl (fun s c => sadd s (dayKey c.arrival_at)) []
      let support : Nat := matchedDays.length
      let totalArrivalDays : Nat := ((dlookup arrival_entity arrivalDaysByTracker).getD []).length
      if totalArrivalDays ≤ 0 then none
      else
        let confidence : ℚ := qdiv (support : ℚ) (totalArrivalDays : ℚ)
        if support < minSupportDays ∨ confidence < minConfidence then none
        else
          let minutesList := items.map fun c => hourOf c.arrival_at * 60 + minuteOf c.arrival_at
          let avgMinutes := minutesList.sum / minutesList.length
          let hh := avgMinutes / 60
          let mm := avgMinutes % 60
          let aliasTitle := "Auto light when arriving home: " ++ light_entity
          some
            { title := aliasTitle
              arrival_entity := arrival_entity
              door_entity := door_entity
              light_entity := light_entity
              typical_arrival_time := two hh ++ ":" ++ two mm
              support_days := support
              arrival_days := totalArrivalDays
              confidence := round4 confidence
              automation_yaml := routineYaml aliasTitle arrival_entity door_entity light_entity
              type := "arrival_door_light_routine" }
    List.insertionSort suggGe suggestions

end RoutinePatterns

namespace SequencePatterns

open SmartHome

/-- `sequence_patterns.Transition`. -/
structure Transition where
  entity_id : String
  domain : String
  from_state : String
  to_state : String
  timestamp : Nat
deriving DecidableEq, Repr

/-- A point of one entity's history before differencing. -/
structure StatePoint where
  ts : Nat
  state : String
deriving DecidableEq, Repr

def pointLe (a b : StatePoint) : Prop := a.ts ≤ b.ts

instance (a b : StatePoint) : Decidable (pointLe a b) := by unfold pointLe; infer_instance

def transLe (a b : Transition) : Prop := a.timestamp ≤ b.timestamp

instance (a b : Transition) : Decidable (transLe a b) := by unfold transLe; infer_instance

/-- `sequence_patterns._to_transitions`: group by entity, sort each history,
emit adjacent differing-state transitions, then sort the merged list. -/
def toTransitions (states : List RawSnapshot) : List Transition :=
  let byEntity : List (String × List StatePoint) :=
    states.foldl
      (fun acc item =>
        let entity_id := pyStrip item.entity_id
        if ¬ entity_id.data.contains '.' then acc
        else
          match rawTs item with
          | none => acc
          | some ts => dupd acc entity_id [] (fun l => l ++ [⟨ts, normState item.state⟩]))
      []
  let transitions := byEntity.flatMap fun p =>
    let pts := List.insertionSort pointLe p.2
    let domain := RoutinePatterns.domainOf p.1
    (pts.zip (pts.drop 1)).filterMap fun pr =>
      if pr.1.state = pr.2.state then none
      else some ⟨p.1, domain, pr.1.state, pr.2.state, pr.2.ts⟩
  List.insertionSort transLe transitions

/-- A trigger/action signature `(entity id, kind, operator, value bucket)`. -/
abbrev Sig := String × String × String × String

/-- Noise states ignored by both signature extractors. -/
def isNoise (s : String) : Bool :=
  s == "" || s == "unknown" || s == "unavailable" || s == "none"

/-- `sequence_patterns._trigger_signature`. -/
def triggerSignature (ev : Transition) : Option Sig :=
  if isNoise ev.to_state then none
  else
    let prevNum := parseFloat? ev.from_state
    let currNum := parseFloat? ev.to_state
    match currNum with
    | some c =>
      let rounded := rhe c
      match prevNum with
      | some p =>
        let delta := qsub c p
        if qlit 1 100 < qabs delta then
          some (ev.entity_id, "numeric_trend", if 0 < delta then "up" else "down",
            "value~" ++ toString rounded)
        else some (ev.entity_id, "numeric_state", "value", "value~" ++ toString rounded)
      | none => some (ev.entity_id, "numeric_state", "value", "value~" ++ toString rounded)
    | none => some (ev.entity_id, "state", "to", ev.to_state)

def isActionDomain (d : String) : Bool :=
  d == "light" || d == "switch" || d == "climate" || d == "cover" || d == "fan"
    || d == "lock" || d == "media_player" || d == "input_boolean"

/-- Python `f"{q:.1f}"` for the half-integral climate values in play. -/
def fmtHalf (q : ℚ) : String :=
  let m : Int := (qmul q 10).num
  (if m < 0 then "-" else "") ++ toString (m.natAbs / 10) ++ "." ++ toString (m.natAbs % 10)

/-- `sequence_patterns._action_signature`. -/
def actionSignature (ev : Transition) : Option Sig :=
  if ¬ isActionDomain ev.domain then none
  else if isNoise ev.to_state then none
  else if ev.domain = "climate" then
    match parseFloat? ev.to_state with
    | some c => some (ev.entity_id, "set_temperature", "to",
        fmtHalf (qdiv ((rhe (qmul c 2) : Int) : ℚ) 2))
    | none => some (ev.entity_id, "state", "to", ev.to_state)
  else some (ev.entity_id, "state", "to", ev.to_state)

/-- The backward scan of `build_sequence_suggestions`'s pairing loop (source
lines 156-166), over the reversed prefix of transitions before the action. -/
def scanBack (actionEv : Transition) (windowMinutes : Nat) : List Transition → Option Sig
  | [] => none
  | prevEv :: rest =>
    if (windowMinutes * 60 : Int) < (actionEv.timestamp : Int) - (prevEv.timestamp : Int) then none
    else
      match triggerSignature prevEv with
      | some sig => if prevEv.entity_id ≠ actionEv.entity_id then some sig
                    else scanBack actionEv windowMinutes rest
      | none => scanBack actionEv windowMinutes rest

/-- The trigger chosen for the action candidate at position `idx`. -/
def chosenTriggerAt (transitions : List Transition) (idx : Nat) (windowMinutes : Nat) :
    Option Sig :=
  match transitions[idx]? with
  | none => none
  | some actionEv => scanBack actionEv windowMinutes ((transitions.take idx).reverse)

/-- The `pair_events` dict of `build_sequence_suggestions`: for each
action-candidate transition, its chosen in-window trigger, keyed by
(trigger signature, action signature). -/
def pairEvents (transitions : List Transition) (windowMinutes : Nat) :
    List ((Sig × Sig) × List Transition) :=
  transitions.enum.foldl
    (fun acc pr =>
      match actionSignature pr.2 with
      | none => acc
      | some actionSig =>
        match chosenTriggerAt transitions pr.1 windowMinutes with
        | none => acc
        | some trigSig => dupd acc (trigSig, actionSig) [] (fun l => l ++ [pr.2]))
    []

end SequencePatterns

namespace SmartHome

/-- A parsed JSON document (the wire format of the persisted model). -/
inductive Json where
  | null : Json
  | bool : Bool → Json
  | num : ℚ → Json
  | str : String → Json
  | arr : List Json → Json
  | obj : List (String × Json) → Json
deriving Repr

/-- Python truthiness of a JSON value. -/
def jFalsy : Json → Bool
  | .null => true
  | .bool b => !b
  | .num q => q == 0
  | .str s => s == ""
  | .arr xs => xs.isEmpty
  | .obj kvs => kvs.isEmpty

/-- Truncation toward zero, as Python `int()` on a number. -/
def ratTrunc (q : ℚ) : Int := if q < 0 then ⌈q⌉ else ⌊q⌋

/-- Python `int(v)` on a parsed JSON value (exception modelled as `none`). -/
def jInt? : Json → Option Int
  | .num q => some (ratTrunc q)
  | .str s => pyIntOfString? s
  | .bool b => some (if b then 1 else 0)
  | _ => none

/-- Python `float(v)` on a parsed JSON value (exception modelled as `none`). -/
def jRat? : Json → Option ℚ
  | .num q => some q
  | .str s => parseFloat? s
  | .bool b => some (if b then 1 else 0)
  | _ => none

/-- Python `v.items()`: only a dict has it. -/
def jObj? : Json → Option (List (String × Json))
  | .obj kvs => some kvs
  | _ => none

/-- `payload.get(k, {}) or {}` followed by `.items()`. -/
def getObjField (kvs : List (String × Json)) (k : String) : Option (List (String × Json)) :=
  match dlookup k kvs with
  | none => some []
  | some v => if jFalsy v then some [] else jObj? v

/-- `slot_key.split(":", 1)` when a colon is present. -/
def splitFirstColon (s : String) : Option (String × String) :=
  let pre := s.data.takeWhile (· ≠ ':')
  if pre.length = s.data.length then none
  else some (⟨pre⟩, ⟨s.data.drop (pre.length + 1)⟩)

/-- `from_dict`'s `parse_slot` (exception modelled as `none`). -/
def parseSlot? (s : String) : Option Slot :=
  match splitFirstColon s with
  | none => none
  | some wh =>
    match pyIntOfString? wh.1, pyIntOfString? wh.2 with
    | some wi, some hi => some (wi, hi)
    | _, _ => none

/-- `f"{k[0]}:{k[1]}"` on a slot key. -/
def encodeSlot (s : Slot) : String := toString s.1 ++ ":" ++ toString s.2

/-- Serialise a `{entity: int}` map. -/
def jOfIntMap (m : List (String × Int)) : Json :=
  .obj (m.map fun q => (q.1, .num (q.2 : ℚ)))

/-- Serialise a `{entity: {state: int}}` map. -/
def jOfStateMap (m : List (String × List (String × Int))) : Json :=
  .obj (m.map fun q => (q.1, jOfIntMap q.2))

/-- `UserActionModel.to_dict`. -/
def UserActionModel.to_dict (m : UserActionModel) : Json :=
  .obj
    [("min_support", .num (m.min_support : ℚ)),
     ("min_confidence", .num m.min_confidence),
     ("slot_total_actions", .obj (m.slot_total_actions.map fun p => (encodeSlot p.1, Json.num (p.2 : ℚ)))),
     ("slot_entity_total_count", .obj (m.slot_entity_total_count.map fun p => (encodeSlot p.1, jOfIntMap p.2))),
     ("slot_entity_state_count", .obj (m.slot_entity_state_count.map fun p => (encodeSlot p.1, jOfStateMap p.2))),
     ("slot_entity_day_count", .obj (m.slot_entity_day_count.map fun p => (encodeSlot p.1, jOfIntMap p.2))),
     ("slot_entity_state_day_count", .obj (m.slot_entity_state_day_count.map fun p => (encodeSlot p.1, jOfStateMap p.2))),
     ("global_total_actions", .num (m.global_total_actions : ℚ)),
     ("global_entity_total_count", jOfIntMap m.global_entity_total_count),
     ("global_entity_state_count", jOfStateMap m.global_entity_state_count),
     ("global_entity_day_count", jOfIntMap m.global_entity_day_count),
     ("global_entity_state_day_count", jOfStateMap m.global_entity_state_day_count),
     ("trained_actions", .num (m.trained_actions : ℚ))]

/-- Decode a `{entity: int}` JSON object. -/
def decodeIntMap : List (String × Json) → Option (List (String × Int))
  | [] => some []
  | p :: rest =>
    match jInt? p.2, decodeIntMap rest with
    | some n, some r => some ((p.1, n) :: r)
    | _, _ => none

/-- Decode a `{state: int}` object out of a JSON value. -/
def decodeStates (v : Json) : Option (List (String × Int)) :=
  match jObj? v with
  | none => none
  | some kvs => decodeIntMap kvs

/-- Decode a `{entity: {state: int}}` JSON object. -/
def decodeStateMap : List (String × Json) → Option (List (String × List (String × Int)))
  | [] => some []
  | p :: rest =>
    match decodeStates p.2, decodeStateMap rest with
    | some sm, some r => some ((p.1, sm) :: r)
    | _, _ => none

/-- Decode a slot-keyed object with a decoder for its values. -/
def decodeSlotMap {V : Type} : List (String × Json) → (Json → Option V) →
    Option (List (Slot × V))
  | [], _ => some []
  | p :: rest, dv =>
    match parseSlot? p.1, dv p.2, decodeSlotMap rest dv with
    | some slot, some v, some r => some ((slot, v) :: r)
    | _, _, _ => none

/-- `payload.get(k, dflt)` coerced with `int()`. -/
def getIntField (kvs : List (String × Json)) (k : String) (dflt : Int) : Option Int :=
  match dlookup k kvs with
  | none => some dflt
  | some v => jInt? v

/-- `payload.get(k, dflt)` coerced with `float()`. -/
def getRatField (kvs : List (String × Json)) (k : String) (dflt : ℚ) : Option ℚ :=
  match dlookup k kvs with
  | none => some dflt
  | some v => jRat? v

/-- A slot-keyed field: `payload.get(k, {}) or {}`, then per-entry decoding. -/
def getSlotField {V : Type} (kvs : List (String × Json)) (k : String) (dv : Json → Option V) :
    Option (List (Slot × V)) :=
  (getObjField kvs k).bind fun r => decodeSlotMap r dv

/-- Decode a `{entity: {state: int}}` object out of a JSON value. -/
def decodeEntityStates (v : Json) : Option (List (String × List (String × Int))) :=
  (jObj? v).bind decodeStateMap

/-- The straight-line parsing part of `from_dict` (source lines 301-353),
before the repair steps. Python raises (caught by `ModelStore.load`) where
this returns `none`. The two `*_state_count` maps are assigned uncoerced in
Python and only validated when a repair step or later consumer iterates
them; this embedding validates them at assignment, which agrees with the
source on every payload whose state-count values are well-typed maps. -/
def rawFromDict (payload : Json) : Option UserActionModel :=
  (jObj? payload).bind fun kvs =>
  (getIntField kvs "min_support" 5).bind fun minSupport =>
  (getRatField kvs "min_confidence" (qlit 6 10)).bind fun minConfidence =>
  (getSlotField kvs "slot_total_actions" jInt?).bind fun slotTotals =>
  (getSlotField kvs "slot_entity_total_count" decodeStates).bind fun slotEntityTotals =>
  (getSlotField kvs "slot_entity_state_count" decodeEntityStates).bind fun slotEntityState =>
  (getSlotField kvs "slot_entity_day_count" decodeStates).bind fun slotEntityDay =>
  (getSlotField kvs "slot_entity_state_day_count" decodeEntityStates).bind fun slotEntityStateDay =>
  (getIntField kvs "global_total_actions" 0).bind fun globalTotalActions =>
  ((getObjField kvs "global_entity_total_count").bind decodeIntMap).bind fun globalEntityTotals =>
  ((getObjField kvs "global_entity_state_count").bind decodeStateMap).bind fun globalEntityState =>
  ((getObjField kvs "global_entity_day_count").bind decodeIntMap).bind fun globalEntityDay =>
  ((getObjField kvs "global_entity_state_day_count").bind decodeStateMap).bind fun globalEntityStateDay =>
  (getIntField kvs "trained_actions" 0).bind fun trainedActions =>
  some
    (UserActionModel.mk minSupport minConfidence slotTotals slotEntityTotals slotEntityState
      slotEntityDay slotEntityStateDay globalTotalActions globalEntityTotals globalEntityState
      globalEntityDay globalEntityStateDay trainedActions)

/-- Sum of a `{state: int}` map's values (`int(sum(states.values()))`). -/
def sumStates (sm : List (String × Int)) : Int := (sm.map Prod.snd).sum

/-- The first repair block of `from_dict` (source lines 355-369): rebuild
entity-total maps from per-state counts when absent. -/
def rebuildEntityTotals (m : UserActionModel) : UserActionModel :=
  let m :=
    if m.slot_entity_total_count.isEmpty && !m.slot_entity_state_count.isEmpty then
      { m with slot_entity_total_count :=
          m.slot_entity_state_count.map fun p => (p.1, p.2.map fun q => (q.1, sumStates q.2)) }
    else m
  if m.global_entity_total_count.isEmpty && !m.global_entity_state_count.isEmpty then
    { m with global_entity_total_count :=
        m.global_entity_state_count.map fun q => (q.1, sumStates q.2) }
  else m

/-- The second repair block of `from_dict` (source lines 371-391): backfill
day-count maps by copying raw counts when absent. -/
def backfillDayCounts (m : UserActionModel) : UserActionModel :=
  let m :=
    if m.slot_entity_day_count.isEmpty && !m.slot_entity_total_count.isEmpty then
      { m with slot_entity_day_count := m.slot_entity_total_count }
    else m
  let m :=
    if m.slot_entity_state_day_count.isEmpty && !m.slot_entity_state_count.isEmpty then
      { m with slot_entity_state_day_count := m.slot_entity_state_count }
    else m
  let m :=
    if m.global_entity_day_count.isEmpty && !m.global_entity_total_count.isEmpty then
      { m with global_entity_day_count := m.global_entity_total_count }
    else m
  if m.global_entity_state_day_count.isEmpty && !m.global_entity_state_count.isEmpty then
    { m with global_entity_state_day_count := m.global_entity_state_count }
  else m

/-- `UserActionModel.from_dict`: parse, then entity-total rebuild, then
day-count backfill — the repair order the source applies. -/
def UserActionModel.from_dict (payload : Json) : Option UserActionModel :=
  (rawFromDict payload).map fun m => backfillDayCounts (rebuildEntityTotals m)

/-- Modelled from the spec (spec.md §4.3): the same two repair blocks applied
in the spec's stated order — day-count backfill first, entity-total rebuild
second. Used only to compare against `UserActionModel.from_dict`. -/
def fromDictSpecOrder (payload : Json) : Option UserActionModel :=
  (rawFromDict payload).map fun m => rebuildEntityTotals (backfillDayCounts m)

/-- The file-system state `ModelStore.load` can observe at its path:
no file, a file whose content fails JSON parsing (or any read error, both
caught by the `except` clause), or a file parsing to a JSON document. -/
inductive FSState where
  | absent : FSState
  | unreadable : FSState
  | parsed : Json → FSState

/-- `ModelStore.load`. -/
def ModelStore.load : FSState → Option UserActionModel
  | .absent => none
  | .unreadable => none
  | .parsed j => UserActionModel.from_dict j

end SmartHome

namespace SmartHome

/-- Convenience constructor for a snapshot with a parsed `last_changed`. -/
def snapAt (e st : String) (ts : Nat) : RawSnapshot := ⟨e, st, some (some ts), none⟩

end SmartHome

namespace RoutinePatterns

open SmartHome

/-- Modelled from the claim's words: the number of distinct calendar days on
which `e` had ANY arrival event in the input (a `device_tracker` event with a
home-indicating state) — the denominator the spec asserts. Used only to
compare against what `build_routine_suggestions` actually reports. -/
def anyArrivalDayCount (states : List RawSnapshot) (e : String) : Nat :=
  ((((toEvents states).filter fun ev => isArrival ev && ev.entity_id == e).map
    fun ev => dayKey ev.timestamp)).dedup.length

/-- The number of distinct calendar days on which `e` had an arrival event
that anchors a completed chain — the denominator the code actually uses. -/
def chainArrivalDayCount (chains : List ArrivalChain) (e : String) : Nat :=
  (((chains.filter fun c => c.arrival_entity == e).map
    fun c => dayKey c.arrival_at)).dedup.length

/-- Arrival on two days, but only the first day's arrival completes a
presence→door→light chain: the second day has no door event at all. -/
def c1states : List RawSnapshot :=
  [snapAt "device_tracker.me" "home" 64800,
   snapAt "binary_sensor.front_door" "on" 65100,
   snapAt "light.hall" "on" 65400,
   snapAt "device_tracker.me" "home" 151200]

/-- A presence event whose only door event comes 25 minutes later. -/
def c7lateDoor : List RawSnapshot :=
  [snapAt "device_tracker.me" "home" 64800,
   snapAt "binary_sensor.front_door" "on" (64800 + 25 * 60)]

/-- A presence event with a door 15 minutes later and a light 10 minutes
after the door. -/
def c7good : List RawSnapshot :=
  [snapAt "device_tracker.me" "home" 64800,
   snapAt "binary_sensor.front_door" "on" (64800 + 15 * 60),
   snapAt "light.hall" "on" (64800 + 25 * 60)]

end RoutinePatterns

namespace SequencePatterns

open SmartHome

/-- Position `j` in the transition list holds a valid prior trigger for the
action `a`: within the pairing window, on a different entity, and yielding a
trigger signature. -/
def validTriggerIdx (ts : List Transition) (a : Transition) (w : Nat) (j : Nat) : Prop :=
  ∃ t, ts[j]? = some t ∧ (a.timestamp : Int) - (t.timestamp : Int) ≤ (w * 60 : Int) ∧
    t.entity_id ≠ a.entity_id ∧ (triggerSignature t).isSome

/-- A sorted transition list for exercising the pairing scan: a far trigger,
a near trigger, then the action candidate. -/
def c6ts : List Transition :=
  [⟨"binary_sensor.motion", "binary_sensor", "off", "on", 100⟩,
   ⟨"binary_sensor.door", "binary_sensor", "off", "on", 300⟩,
   ⟨"light.hall", "light", "off", "on", 400⟩]

def c6action : Transition := ⟨"light.hall", "light", "off", "on", 400⟩

end SequencePatterns

namespace SmartHome

/-- Whether `st` occurs as a state key in any of the model's four
state-keyed counter maps. -/
def isStateKeyIn (m : UserActionModel) (st : String) : Prop :=
  (∃ p ∈ m.slot_entity_state_count, ∃ q ∈ p.2, ∃ r ∈ q.2, r.1 = st) ∨
  (∃ p ∈ m.slot_entity_state_day_count, ∃ q ∈ p.2, ∃ r ∈ q.2, r.1 = st) ∨
  (∃ q ∈ m.global_entity_state_count, ∃ r ∈ q.2, r.1 = st) ∨
  (∃ q ∈ m.global_entity_state_day_count, ∃ r ∈ q.2, r.1 = st)

/-- The all-empty freshly-constructed model (`UserActionModel()` defaults). -/
def emptyModel : UserActionModel :=
  ⟨5, qlit 6 10, [], [], [], [], [], 0, [], [], [], [], 0⟩

/-- Events for exercising `fit`: a mixed-case padded state and a second
day/state for the same light. -/
def c10events : List ActionEvent :=
  [⟨"light.hall", "off", " On ", 64800⟩, ⟨"light.hall", "on", "off", 151200⟩]

/-- A model whose strict slot tier already produces a candidate for
Thursday 18:00 while its global counters would produce a different one. -/
def c5model : UserActionModel :=
  { emptyModel with
    min_support := 1
    min_confidence := qlit 1 2
    slot_entity_day_count := [((3, 18), [("light.hall", 2)])]
    slot_entity_state_day_count := [((3, 18), [("light.hall", [("on", 2)])])]
    global_entity_day_count := [("switch.x", 1), ("light.hall", 2)]
    global_entity_state_day_count :=
      [("switch.x", [("on", 1)]), ("light.hall", [("on", 2), ("off", 1)])] }

/-- A legacy payload carrying only per-state raw counts: no entity totals,
no day counts. -/
def c2legacy (n : Int) : Json :=
  .obj [("slot_entity_state_count",
          .obj [("3:7", .obj [("light.x", .obj [("on", .num (n : ℚ))])])])]

/-- What `from_dict` makes of `c2legacy n`: entity totals rebuilt by summing
state counts, then day counts backfilled from the rebuilt counts. -/
def c2expected (n : Int) : UserActionModel :=
  { emptyModel with
    slot_entity_total_count := [((3, 7), [("light.x", n)])]
    slot_entity_state_count := [((3, 7), [("light.x", [("on", n)])])]
    slot_entity_day_count := [((3, 7), [("light.x", n)])]
    slot_entity_state_day_count := [((3, 7), [("light.x", [("on", n)])])] }

/-- A parse-level corrupt payload: `slot_total_actions` is a string, so the
source's `.items()` iteration raises. -/
def c9corrupt : Json := .obj [("slot_total_actions", .str "oops")]

/-- Two snapshots of one entity sharing a timestamp, in two orders. -/
def c3dupA : List RawSnapshot := [snapAt "light.a" "on" 100, snapAt "light.a" "off" 100]

def c3dupB : List RawSnapshot := [snapAt "light.a" "off" 100, snapAt "light.a" "on" 100]

/-- Snapshots of two entities with globally distinct timestamps. -/
def c3distinct : List RawSnapshot :=
  [snapAt "light.a" "on" 100, snapAt "light.a" "off" 200,
   snapAt "switch.b" "off" 150, snapAt "switch.b" "on" 250]

/-- A shuffle of `c3distinct`. -/
def c3shuffled : List RawSnapshot :=
  [snapAt "switch.b" "on" 250, snapAt "light.a" "on" 100,
   snapAt "switch.b" "off" 150, snapAt "light.a" "off" 200]

end SmartHome

namespace RoutinePatterns

open SmartHome

/-- The one suggestion `build_routine_suggestions` emits for `c1states` with
thresholds (1, 0) and 20/20-minute windows. -/
def c1sugg : RoutineSuggestion :=
  { title := "Auto light when arriving home: light.hall"
    arrival_entity := "device_tracker.me"
    door_entity := "binary_sensor.front_door"
    light_entity := "light.hall"
    typical_arrival_time := "18:00"
    support_days := 1
    arrival_days := 1
    confidence := 1
    automation_yaml := routineYaml "Auto light when arriving home: light.hall"
      "device_tracker.me" "binary_sensor.front_door" "light.hall"
    type := "arrival_door_light_routine" }

end RoutinePatterns

namespace SmartHome

theorem dlookup_dset {K V : Type} [DecidableEq K] (m : List (K × V)) (k k' : K) (v : V) :
    dlookup k (dset m k' v) = if k' = k then some v else dlookup k m := by
  induction m with
  | nil => simp [dset, dlookup]
  | cons kv rest ih =>
    by_cases h1 : kv.1 = k'
    · simp only [dset, h1, if_pos rfl, dlookup]
      by_cases h2 : k' = k <;> simp [h1, h2, dlookup]
    · simp only [dset, if_neg h1, dlookup]
      by_cases h2 : kv.1 = k
      · have : ¬ k' = k := fun he => h1 (h2.trans he.symm)
        simp [h2, this]
      · simp [h2, ih]

theorem dset_ne_nil {K V : Type} [DecidableEq K] (m : List (K × V)) (k : K) (v : V) :
    dset m k v ≠ [] := by
  cases m with
  | nil => simp [dset]
  | cons kv rest => by_cases h : kv.1 = k <;> simp [dset, h]

theorem mem_dset_elim {K V : Type} [DecidableEq K] {m : List (K × V)} {k : K} {v : V}
    {p : K × V} (hp : p ∈ dset m k v) : p = (k, v) ∨ p ∈ m := by
  induction m with
  | nil => simpa [dset] using hp
  | cons kv rest ih =>
    by_cases h : kv.1 = k
    · simp only [dset, if_pos h] at hp
      rcases List.mem_cons.mp hp with h1 | h1
      · exact Or.inl h1
      · exact Or.inr (List.mem_cons_of_mem _ h1)
    · simp only [dset, if_neg h] at hp
      rcases List.mem_cons.mp hp with h1 | h1
      · exact Or.inr (h1 ▸ List.mem_cons_self kv rest)
      · rcases ih h1 with h2 | h2
        · exact Or.inl h2
        · exact Or.inr (List.mem_cons_of_mem _ h2)

theorem keys_dset {K V : Type} [DecidableEq K] (m : List (K × V)) (k : K) (v : V) :
    (dset m k v).map Prod.fst =
      if k ∈ m.map Prod.fst then m.map Prod.fst else m.map Prod.fst ++ [k] := by
  induction m with
  | nil => simp [dset]
  | cons kv rest ih =>
    by_cases h : kv.1 = k
    · simp [dset, h]
    · have : ¬ k = kv.1 := fun he => h he.symm
      simp only [dset, if_neg h, List.map_cons, ih, List.mem_cons]
      by_cases h2 : k ∈ rest.map Prod.fst <;> simp [h2, this]

theorem nodup_keys_dset {K V : Type} [DecidableEq K] {m : List (K × V)} (k : K) (v : V)
    (h : (m.map Prod.fst).Nodup) : ((dset m k v).map Prod.fst).Nodup := by
  rw [keys_dset]
  by_cases h2 : k ∈ m.map Prod.fst
  · simpa [h2]
  · simpa [h2] using List.Nodup.append h (List.nodup_singleton k) (by simpa using h2)

theorem dlookup_eq_none_iff {K V : Type} [DecidableEq K] {m : List (K × V)} {k : K} :
    dlookup k m = none ↔ k ∉ m.map Prod.fst := by
  induction m with
  | nil => simp [dlookup]
  | cons kv rest ih =>
    by_cases h : kv.1 = k
    · simp [dlookup, h]
    · simp only [dlookup, if_neg h, ih, List.map_cons, List.mem_cons]
      constructor
      · intro h1 h2
        rcases h2 with h2 | h2
        · exact h (h2.symm)
        · exact h1 h2
      · intro h1 h2
        exact h1 (Or.inr h2)

theorem dlookup_some_mem {K V : Type} [DecidableEq K] {m : List (K × V)} {k : K} {v : V}
    (h : dlookup k m = some v) : (k, v) ∈ m := by
  induction m with
  | nil => simp [dlookup] at h
  | cons kv rest ih =>
    by_cases h1 : kv.1 = k
    · simp only [dlookup, if_pos h1] at h
      cases h
      exact h1 ▸ List.mem_cons_self kv rest
    · simp only [dlookup, if_neg h1] at h
      exact List.mem_cons_of_mem _ (ih h)

theorem dlookup_of_mem_of_nodup {K V : Type} [DecidableEq K] {m : List (K × V)} {k : K} {v : V}
    (hn : (m.map Prod.fst).Nodup) (h : (k, v) ∈ m) : dlookup k m = some v := by
  induction m with
  | nil => simp at h
  | cons kv rest ih =>
    rcases List.mem_cons.mp h with h1 | h1
    · simp [dlookup, ← h1]
    · have hk : kv.1 ≠ k := by
        intro he
        have : k ∈ rest.map Prod.fst := List.mem_map.mpr ⟨(k, v), h1, rfl⟩
        simp only [List.map_cons, List.nodup_cons] at hn
        exact hn.1 (he ▸ this)
      simp only [dlookup, if_neg hk]
      exact ih (by simpa using hn.of_cons) h1

theorem mem_sadd {A : Type} [DecidableEq A] {s : List A} {a b : A} :
    a ∈ sadd s b ↔ a ∈ s ∨ a = b := by
  by_cases h : b ∈ s
  · constructor
    · intro h1; simp only [sadd, if_pos h] at h1; exact Or.inl h1
    · intro h1
      rcases h1 with h1 | h1
      · simpa [sadd, h]
      · simpa [sadd, h, h1]
  · simp [sadd, if_neg h]

theorem nodup_sadd {A : Type} [DecidableEq A] {s : List A} (b : A) (h : s.Nodup) :
    (sadd s b).Nodup := by
  by_cases h1 : b ∈ s
  · simpa [sadd, h1]
  · simp only [sadd, if_neg h1]
    exact List.Nodup.append h (List.nodup_singleton b) (by simpa using h1)

theorem mem_foldl_sadd {A : Type} [DecidableEq A] (l : List A) (s : List A) (a : A) :
    a ∈ l.foldl sadd s ↔ a ∈ s ∨ a ∈ l := by
  induction l generalizing s with
  | nil => simp
  | cons x xs ih =>
    rw [List.foldl_cons, ih, List.mem_cons, mem_sadd]
    tauto

theorem nodup_foldl_sadd {A : Type} [DecidableEq A] (l : List A) (s : List A) (h : s.Nodup) :
    (l.foldl sadd s).Nodup := by
  induction l generalizing s with
  | nil => simpa
  | cons x xs ih => exact ih _ (nodup_sadd x h)

theorem length_foldl_sadd {A : Type} [DecidableEq A] (l : List A) :
    (l.foldl sadd []).length = l.dedup.length := by
  have hperm : (l.foldl sadd []).Perm l.dedup := by
    refine (List.perm_ext_iff_of_nodup (nodup_foldl_sadd l [] (by simp)) l.nodup_dedup).2 ?_
    intro a
    rw [mem_foldl_sadd, List.mem_dedup]
    simp
  exact hperm.length_eq

end SmartHome

namespace SmartHome

theorem foldl_filterMap_match {α β B : Type} (g : α → Option β) (h : B → β → B)
    (l : List α) (init : B) :
    l.foldl (fun acc x => match g x with | none => acc | some y => h acc y) init
      = (l.filterMap g).foldl h init := by
  induction l generalizing init with
  | nil => rfl
  | cons x xs ih =>
    cases hx : g x <;> simp [List.filterMap_cons, hx, ih]

theorem foldl_append_singleton {α : Type} (l : List α) (init : List α) :
    l.foldl (fun acc c => acc ++ [c]) init = init ++ l := by
  induction l generalizing init with
  | nil => simp
  | cons x xs ih => simp [ih]

/-- Lookup after the generic "bucket" fold `d[key c] = f (d.get (key c) dflt) c`,
`getD dflt` view. -/
theorem getD_dlookup_foldl_bucket {α K B : Type} [DecidableEq K] (key : α → K)
    (f : B → α → B) (dflt : B) (l : List α) (acc : List (K × B)) (k : K) :
    ((dlookup k (l.foldl (fun acc c => dupd acc (key c) dflt (fun b => f b c)) acc)).getD dflt)
      = (l.filter fun c => key c == k).foldl f ((dlookup k acc).getD dflt) := by
  induction l generalizing acc with
  | nil => rfl
  | cons x xs ih =>
    rw [List.foldl_cons, ih, List.filter_cons]
    by_cases hx : key x = k
    · simp only [hx, beq_self_eq_true, if_pos, List.foldl_cons, dupd, dlookup_dset, if_pos rfl,
        Option.getD_some]
    · have hb : (key x == k) = false := by simpa using hx
      simp only [hb, if_neg, Bool.false_eq_true, not_false_iff, dupd, dlookup_dset, if_neg hx]

theorem nodup_keys_foldl_bucket {α K B : Type} [DecidableEq K] (key : α → K)
    (f : B → α → B) (dflt : B) (l : List α) (acc : List (K × B))
    (hacc : (acc.map Prod.fst).Nodup) :
    (((l.foldl (fun acc c => dupd acc (key c) dflt (fun b => f b c)) acc)).map Prod.fst).Nodup := by
  induction l generalizing acc with
  | nil => simpa
  | cons x xs ih => exact ih _ (nodup_keys_dset _ _ hacc)

theorem mem_keys_foldl_bucket {α K B : Type} [DecidableEq K] (key : α → K)
    (f : B → α → B) (dflt : B) (l : List α) (acc : List (K × B)) (k : K) :
    k ∈ ((l.foldl (fun acc c => dupd acc (key c) dflt (fun b => f b c)) acc)).map Prod.fst
      ↔ k ∈ acc.map Prod.fst ∨ ∃ c ∈ l, key c = k := by
  induction l generalizing acc with
  | nil => simp
  | cons x xs ih =>
    rw [List.foldl_cons, ih, dupd, keys_dset]
    by_cases hx : key x ∈ acc.map Prod.fst
    · rw [if_pos hx]
      constructor
      · intro h1
        rcases h1 with h1 | h1
        · exact Or.inl h1
        · exact Or.inr (by rcases h1 with ⟨c, hc, hk⟩; exact ⟨c, List.mem_cons_of_mem _ hc, hk⟩)
      · intro h1
        rcases h1 with h1 | ⟨c, hc, hk⟩
        · exact Or.inl h1
        · rcases List.mem_cons.mp hc with h2 | h2
          · exact Or.inl (by rw [← hk, h2]; exact hx)
          · exact Or.inr ⟨c, h2, hk⟩
    · rw [if_neg hx, List.mem_append, List.mem_singleton]
      constructor
      · intro h1
        rcases h1 with (h1 | h1) | h1
        · exact Or.inl h1
        · exact Or.inr ⟨x, List.mem_cons_self x xs, h1.symm⟩
        · exact Or.inr (by rcases h1 with ⟨c, hc, hk⟩; exact ⟨c, List.mem_cons_of_mem _ hc, hk⟩)
      · intro h1
        rcases h1 with h1 | ⟨c, hc, hk⟩
        · exact Or.inl (Or.inl h1)
        · rcases List.mem_cons.mp hc with h2 | h2
          · exact Or.inl (Or.inr (by rw [← hk, h2]))
          · exact Or.inr ⟨c, h2, hk⟩

/-- Every entry of a bucket fold started from the empty dict is determined by
its key: the value is `f` folded over exactly the matching inputs. -/
theorem snd_of_mem_foldl_bucket {α K B : Type} [DecidableEq K] (key : α → K)
    (f : B → α → B) (dflt : B) (l : List α) {p : K × B}
    (hp : p ∈ l.foldl (fun acc c => dupd acc (key c) dflt (fun b => f b c)) []) :
    p.2 = (l.filter fun c => key c == p.1).foldl f dflt := by
  have hn := nodup_keys_foldl_bucket key f dflt l [] (by simp)
  have hl : dlookup p.1 (l.foldl (fun acc c => dupd acc (key c) dflt (fun b => f b c)) [])
      = some p.2 := dlookup_of_mem_of_nodup hn (by simpa using hp)
  have := getD_dlookup_foldl_bucket key f dflt l [] p.1
  rw [hl] at this
  simpa [dlookup] using this

end SmartHome

namespace RoutinePatterns

open SmartHome

theorem findFirstAux_some {startTs endTs : Nat} {p : Event → Bool} {l : List Event}
    {idx : Nat} {ev : Event} {ri : Nat}
    (h : findFirstAux startTs endTs p l idx = (some ev, ri)) :
    startTs ≤ ev.timestamp ∧ ev.timestamp ≤ endTs ∧ p ev = true := by
  induction l generalizing idx with
  | nil => simp [findFirstAux] at h
  | cons x xs ih =>
    by_cases h1 : endTs < x.timestamp
    · simp [findFirstAux, h1] at h
    · by_cases h2 : startTs ≤ x.timestamp ∧ p x
      · simp only [findFirstAux, if_neg h1, if_pos h2, Prod.mk.injEq, Option.some.injEq] at h
        exact ⟨h.1 ▸ h2.1, h.1 ▸ Nat.le_of_not_lt h1, h.1 ▸ h2.2⟩
      · simp only [findFirstAux, if_neg h1, if_neg h2] at h
        exact ih h

theorem findFirst_some {events : List Event} {startIdx startTs endTs : Nat}
    {p : Event → Bool} {ev : Event} {ri : Nat}
    (h : findFirst events startIdx startTs endTs p = (some ev, ri)) :
    startTs ≤ ev.timestamp ∧ ev.timestamp ≤ endTs ∧ p ev = true :=
  findFirstAux_some h

theorem chainsFromEvents_bounds {events : List Event} {w1 w2 : Nat} {c : ArrivalChain}
    (hc : c ∈ chainsFromEvents events w1 w2) :
    c.arrival_at ≤ c.door_at ∧ c.door_at ≤ c.arrival_at + w1 * 60 ∧
      c.door_at ≤ c.light_at ∧ c.light_at ≤ c.door_at + w2 * 60 := by
  rcases List.mem_filterMap.mp hc with ⟨pr, _, heq⟩
  by_cases ha : isArrival pr.2
  · simp only [if_neg (by simp [ha] : ¬ (¬ isArrival pr.2 = true))] at heq
    rcases hdoor : findFirst events pr.1 pr.2.timestamp (pr.2.timestamp + w1 * 60) isDoorOpen with
      ⟨odoor, doorIdx⟩
    rw [hdoor] at heq
    cases odoor with
    | none => simp at heq
    | some doorEv =>
      dsimp only at heq
      rcases hlight : findFirst events doorIdx doorEv.timestamp
          (doorEv.timestamp + w2 * 60) isLightOn with ⟨olight, lightIdx⟩
      rw [hlight] at heq
      cases olight with
      | none => simp at heq
      | some lightEv =>
        simp only [Option.some.injEq] at heq
        obtain ⟨hd1, hd2, _⟩ := findFirst_some hdoor
        obtain ⟨hl1, hl2, _⟩ := findFirst_some hlight
        subst heq
        exact ⟨hd1, hd2, hl1, hl2⟩
  · simp [ha] at heq

end RoutinePatterns

namespace RoutinePatterns

open SmartHome

/-- C7: every chain returned by `find_arrival_chains` satisfies
`arrival_at ≤ door_at ≤ arrival_at + arrival_to_door_minutes` and
`door_at ≤ light_at ≤ door_at + door_to_light_minutes`; a presence event
whose only door event is 25 minutes later under a 20-minute window yields no
chain, while door at 15 minutes and light 10 minutes after the door
(windows 20/20) yields exactly one chain; every emitted chain carries all
three steps by construction. -/
theorem c7_arrival_chain_windows :
    (∀ (states : List RawSnapshot) (w1 w2 : Nat),
       ∀ c ∈ find_arrival_chains states w1 w2,
         c.arrival_at ≤ c.door_at ∧ c.door_at ≤ c.arrival_at + w1 * 60 ∧
         c.door_at ≤ c.light_at ∧ c.light_at ≤ c.door_at + w2 * 60)
    ∧ find_arrival_chains c7lateDoor 20 20 = []
    ∧ (find_arrival_chains c7good 20 20).length = 1 := by
  refine ⟨?_, by decide, by decide⟩
  intro states w1 w2 c hc
  exact chainsFromEvents_bounds hc

/-- Witness for `c7_arrival_chain_windows` at the complete concrete scenario. -/
theorem c7_arrival_chain_windows_witness :
    (⟨"device_tracker.me", "binary_sensor.front_door", "light.hall",
        64800, 65700, 66300⟩ : ArrivalChain) ∈ find_arrival_chains c7good 20 20 ∧
    (64800 ≤ 65700 ∧ 65700 ≤ 64800 + 20 * 60 ∧ 65700 ≤ 66300 ∧ 66300 ≤ 65700 + 20 * 60) :=
  ⟨by decide, c7_arrival_chain_windows.1 c7good 20 20
    ⟨"device_tracker.me", "binary_sensor.front_door", "light.hall", 64800, 65700, 66300⟩
    (by decide)⟩

end RoutinePatterns

namespace SmartHome

theorem ratTrunc_intCast (n : Int) : ratTrunc ((n : ℚ)) = n := by
  unfold ratTrunc
  by_cases h : (n : ℚ) < 0 <;> simp [h, Int.floor_intCast, Int.ceil_intCast]

/-- C9: `ModelStore.load` is total — it returns absent when the file is
missing, absent when the content fails to parse (or any read error), the
`from_dict` reconstruction of a parsed payload otherwise, and absent on the
concrete structurally-corrupt payload `c9corrupt`. -/
theorem c9_load_never_raises :
    ModelStore.load .absent = none ∧ ModelStore.load .unreadable = none ∧
    (∀ j : Json, ModelStore.load (.parsed j) = UserActionModel.from_dict j) ∧
    ModelStore.load (.parsed c9corrupt) = none :=
  ⟨rfl, rfl, fun _ => rfl, by decide⟩

/-- C2 counterexample: the two repair orderings are not extensionally equal —
the code's order (entity totals first, then day backfill) and the spec's
stated order (day backfill first) disagree on a legacy payload that carries
only per-state raw counts. -/
theorem c2_counterexample :
    ¬ (∀ j : Json, UserActionModel.from_dict j = fromDictSpecOrder j) := by
  intro h
  exact absurd (h (c2legacy 2)) (by decide)

/-- C2 amended: `from_dict` applies the entity-total rebuild first and the
day-count backfill second (the reverse of the spec's stated order), so a
legacy payload carrying only per-state raw counts comes back with entity
totals summed from state counts AND day-count maps backfilled from those
rebuilt counts. -/
theorem c2_repair_order :
    (∀ j : Json, UserActionModel.from_dict j
        = (rawFromDict j).map fun m => backfillDayCounts (rebuildEntityTotals m))
    ∧ UserActionModel.from_dict (c2legacy 2) = some (c2expected 2) :=
  ⟨fun _ => rfl, by decide⟩

end SmartHome

namespace RoutinePatterns

open SmartHome

/-- C1 amended: `arrival_days` on a reported suggestion counts the distinct
days on which the presence entity had an arrival that anchors a *completed*
chain (the code builds the denominator from the chain list, not from all
arrival events), and the reported confidence is `support_days / arrival_days`
rounded to 4 decimals. -/
theorem c1_arrival_days_from_chains :
    ∀ (states : List RawSnapshot) (minSupportDays : Nat) (minConfidence : ℚ) (w1 w2 : Nat),
      ∀ s ∈ build_routine_suggestions states minSupportDays minConfidence w1 w2,
        s.arrival_days = chainArrivalDayCount (find_arrival_chains states w1 w2) s.arrival_entity
        ∧ s.confidence = round4 (qdiv (s.support_days : ℚ) (s.arrival_days : ℚ)) := by
  intro states minS minC w1 w2 s hs
  simp only [build_routine_suggestions] at hs
  by_cases hemp : find_arrival_chains states w1 w2 = []
  · simp [hemp] at hs
  · rw [if_neg hemp, List.mem_insertionSort] at hs
    rcases List.mem_filterMap.mp hs with ⟨g, hg, hf⟩
    have hdays := getD_dlookup_foldl_bucket
      (fun c : ArrivalChain => c.arrival_entity)
      (fun b c => sadd b (dayKey c.arrival_at)) []
      (find_arrival_chains states w1 w2) [] g.1.1
    split at hf
    · exact absurd hf (by simp)
    · split at hf
      · exact absurd hf (by simp)
      · rename_i htot hthr
        have hs' := Option.some.inj hf
        subst hs'
        refine ⟨?_, rfl⟩
        show ((dlookup g.1.1 _).getD []).length = _
        rw [hdays]
        simp only [dlookup, Option.getD_none]
        rw [← List.foldl_map (fun c : ArrivalChain => dayKey c.arrival_at) sadd]
        rw [length_foldl_sadd]
        rfl

end RoutinePatterns

namespace RoutinePatterns

open SmartHome

set_option maxRecDepth 100000 in
/-- C1 counterexample: on `c1states` the presence entity has arrival events
on two distinct days but only one day anchors a completed chain, and the
emitted suggestion reports `arrival_days = 1`, not the 2 the claim demands
(its confidence is 1, not 1/2). -/
theorem c1_counterexample :
    ¬ (∀ (states : List RawSnapshot) (minSupportDays : Nat) (minConfidence : ℚ) (w1 w2 : Nat),
        ∀ s ∈ build_routine_suggestions states minSupportDays minConfidence w1 w2,
          s.arrival_days = anyArrivalDayCount states s.arrival_entity
          ∧ s.confidence = round4 (qdiv (s.support_days : ℚ)
              (anyArrivalDayCount states s.arrival_entity : ℚ))) := by
  intro h
  exact absurd (h c1states 1 0 20 20 c1sugg (by decide)).1 (by decide)

set_option maxRecDepth 100000 in
/-- Witness for `c1_arrival_days_from_chains` at the concrete scenario. -/
theorem c1_arrival_days_from_chains_witness :
    c1sugg ∈ build_routine_suggestions c1states 1 0 20 20 ∧
    (c1sugg.arrival_days = chainArrivalDayCount (find_arrival_chains c1states 20 20)
        c1sugg.arrival_entity
      ∧ c1sugg.confidence = round4 (qdiv (c1sugg.support_days : ℚ) (c1sugg.arrival_days : ℚ))) :=
  ⟨by decide, c1_arrival_days_from_chains c1states 1 0 20 20 c1sugg (by decide)⟩

end RoutinePatterns

namespace SequencePatterns

open SmartHome

/-- Whatever `scanBack` returns comes from a scanned position that is in
window, on a different entity, and has that trigger signature — and every
position scanned before it (nearer the action) was rejected for cause. -/
theorem scanBack_sound {a : Transition} {w : Nat} {l : List Transition} {s : Sig}
    (h : scanBack a w l = some s) :
    ∃ i t, l[i]? = some t ∧ (a.timestamp : Int) - (t.timestamp : Int) ≤ (w * 60 : Int) ∧
      t.entity_id ≠ a.entity_id ∧ triggerSignature t = some s ∧
      ∀ (i' : Nat) (t' : Transition), i' < i → l[i']? = some t' →
        ¬((a.timestamp : Int) - (t'.timestamp : Int) ≤ (w * 60 : Int) ∧
          t'.entity_id ≠ a.entity_id ∧ (triggerSignature t').isSome) := by
  induction l with
  | nil => simp [scanBack] at h
  | cons x rest ih =>
    rw [scanBack] at h
    by_cases hw : (w * 60 : Int) < (a.timestamp : Int) - (x.timestamp : Int)
    · rw [if_pos hw] at h
      exact absurd h (by simp)
    · rw [if_neg hw] at h
      rcases hsig : triggerSignature x with _ | sig
      · rw [hsig] at h
        dsimp only at h
        rcases ih h with ⟨i, t, hget, hgap, hdiff, htrig, hprior⟩
        refine ⟨i + 1, t, by simpa using hget, hgap, hdiff, htrig, ?_⟩
        intro i' t' hi' hget' hc
        cases i' with
        | zero =>
          simp only [List.getElem?_cons_zero, Option.some.injEq] at hget'
          rw [← hget'] at hc
          rw [hsig] at hc
          exact absurd hc.2.2 (by simp)
        | succ k =>
          simp only [List.getElem?_cons_succ] at hget'
          exact hprior k t' (by omega) hget' hc
      · rw [hsig] at h
        dsimp only at h
        by_cases hent : x.entity_id ≠ a.entity_id
        · rw [if_pos hent] at h
          refine ⟨0, x, by simp, Int.not_lt.mp hw, hent,
            hsig.trans (congrArg some (Option.some.inj h)), ?_⟩
          intro i' t' hi' _ _
          exact absurd hi' (by omega)
        · rw [if_neg hent] at h
          rcases ih h with ⟨i, t, hget, hgap, hdiff, htrig, hprior⟩
          refine ⟨i + 1, t, by simpa using hget, hgap, hdiff, htrig, ?_⟩
          intro i' t' hi' hget' hc
          cases i' with
          | zero =>
            simp only [List.getElem?_cons_zero, Option.some.injEq] at hget'
            rw [← hget'] at hc
            exact hent hc.2.1
          | succ k =>
            simp only [List.getElem?_cons_succ] at hget'
            exact hprior k t' (by omega) hget' hc

/-- If a valid trigger exists at a scanned position and every position up to
it is still within the window, the scan finds something. -/
theorem scanBack_complete {a : Transition} {w : Nat} {l : List Transition}
    (h : ∃ i t, l[i]? = some t ∧ (a.timestamp : Int) - (t.timestamp : Int) ≤ (w * 60 : Int) ∧
      t.entity_id ≠ a.entity_id ∧ (triggerSignature t).isSome ∧
      ∀ (i' : Nat) (t' : Transition), i' ≤ i → l[i']? = some t' →
        (a.timestamp : Int) - (t'.timestamp : Int) ≤ (w * 60 : Int)) :
    (scanBack a w l).isSome := by
  induction l with
  | nil =>
    rcases h with ⟨i, t, hget, _⟩
    simp at hget
  | cons x rest ih =>
    rcases h with ⟨i, t, hget, hgap, hdiff, hsome, hwin⟩
    have hx0 : (a.timestamp : Int) - (x.timestamp : Int) ≤ (w * 60 : Int) :=
      hwin 0 x (Nat.zero_le i) (by simp)
    rw [scanBack, if_neg (Int.not_lt.mpr hx0)]
    rcases hsig : triggerSignature x with _ | sig
    · dsimp only
      cases i with
      | zero =>
        simp only [List.getElem?_cons_zero, Option.some.injEq] at hget
        rw [← hget] at hsome
        rw [hsig] at hsome
        exact absurd hsome (by simp)
      | succ k =>
        simp only [List.getElem?_cons_succ] at hget
        exact ih ⟨k, t, hget, hgap, hdiff, hsome, fun i' t' hi' hg' =>
          hwin (i' + 1) t' (by omega) (by simpa using hg')⟩
    · dsimp only
      by_cases hent : x.entity_id ≠ a.entity_id
      · rw [if_pos hent]
        simp
      · rw [if_neg hent]
        cases i with
        | zero =>
          simp only [List.getElem?_cons_zero, Option.some.injEq] at hget
          exact absurd (hget ▸ hdiff) hent
        | succ k =>
          simp only [List.getElem?_cons_succ] at hget
          exact ih ⟨k, t, hget, hgap, hdiff, hsome, fun i' t' hi' hg' =>
            hwin (i' + 1) t' (by omega) (by simpa using hg')⟩

end SequencePatterns

namespace SequencePatterns

open SmartHome

/-- C6: on a time-sorted transition list, the pairing scan never chooses a
trigger more than `window_minutes` before the action, and whenever some valid
in-window prior trigger on a different entity exists it chooses the one at
the latest position before the action (ties to any farther candidate are
impossible: every strictly later valid position is refuted). -/
theorem c6_sequence_pairing (ts : List Transition) (w idx : Nat) (a : Transition)
    (hsort : List.Sorted transLe ts) (ha : ts[idx]? = some a) :
    (∀ s : Sig, chosenTriggerAt ts idx w = some s →
        ∃ j, j < idx ∧
          (∃ t, ts[j]? = some t ∧ (a.timestamp : Int) - (t.timestamp : Int) ≤ (w * 60 : Int) ∧
            t.entity_id ≠ a.entity_id ∧ triggerSignature t = some s) ∧
          ∀ j', j < j' → j' < idx → ¬ validTriggerIdx ts a w j')
    ∧ ((∃ j, j < idx ∧ validTriggerIdx ts a w j) → (chosenTriggerAt ts idx w).isSome) := by
  have hlen : idx < ts.length := by
    by_contra hc
    rw [List.getElem?_eq_none (Nat.le_of_not_lt hc)] at ha
    exact Option.noConfusion ha
  have hchosen : chosenTriggerAt ts idx w = scanBack a w ((ts.take idx).reverse) := by
    rw [chosenTriggerAt, ha]
  have htlen : (ts.take idx).length = idx := by
    simp [Nat.min_eq_left (Nat.le_of_lt hlen)]
  have hrlen : ((ts.take idx).reverse).length = idx := by simpa using htlen
  have hridx : ∀ i, i < idx → ((ts.take idx).reverse)[i]? = ts[idx - 1 - i]? := by
    intro i hi
    rw [List.getElem?_reverse (by omega : i < (ts.take idx).length)]
    rw [List.getElem?_take]
    rw [htlen, if_pos (by omega)]
  have hmono : ∀ j j', j ≤ j' → j' < ts.length → ∀ t t', ts[j]? = some t → ts[j']? = some t' →
      t.timestamp ≤ t'.timestamp := by
    intro j j' hle hj' t t' hg hg'
    rcases Nat.eq_or_lt_of_le hle with rfl | hlt
    · rw [hg] at hg'
      cases hg'
      exact Nat.le_refl _
    · have hj : j < ts.length := Nat.lt_trans hlt hj'
      rw [List.getElem?_eq_getElem hj] at hg
      rw [List.getElem?_eq_getElem hj'] at hg'
      cases hg
      cases hg'
      exact List.pairwise_iff_getElem.mp hsort j j' hj hj' hlt
  constructor
  · intro s hs
    rw [hchosen] at hs
    rcases scanBack_sound hs with ⟨i, t, hget, hgap, hdiff, htrig, hprior⟩
    have hi : i < idx := by
      by_contra hc
      rw [List.getElem?_eq_none (by omega : ((ts.take idx).reverse).length ≤ i)] at hget
      exact Option.noConfusion hget
    refine ⟨idx - 1 - i, by omega, ⟨t, by rw [← hridx i hi]; exact hget, hgap, hdiff, htrig⟩, ?_⟩
    intro j' hj1 hj2 hvalid
    rcases hvalid with ⟨t', hg', hgap', hdiff', hsome'⟩
    refine hprior (idx - 1 - j') t' (by omega) ?_ ⟨hgap', hdiff', hsome'⟩
    rw [hridx (idx - 1 - j') (by omega)]
    rw [show idx - 1 - (idx - 1 - j') = j' from by omega]
    exact hg'
  · intro hex
    rcases hex with ⟨j, hj, t, hg, hgap, hdiff, hsome⟩
    rw [hchosen]
    apply scanBack_complete
    refine ⟨idx - 1 - j, t, ?_, hgap, hdiff, hsome, ?_⟩
    · rw [hridx (idx - 1 - j) (by omega)]
      rw [show idx - 1 - (idx - 1 - j) = j from by omega]
      exact hg
    · intro i' t' hi' hg'
      have hi'lt : i' < idx := by omega
      rw [hridx i' hi'lt] at hg'
      have hjle : j ≤ idx - 1 - i' := by omega
      have hts : t.timestamp ≤ t'.timestamp :=
        hmono j (idx - 1 - i') hjle (by omega) t t' hg hg'
      omega

end SequencePatterns

namespace SequencePatterns

open SmartHome

/-- Witness for `c6_sequence_pairing` on the concrete sorted list `c6ts`. -/
theorem c6_sequence_pairing_witness :
    (List.Sorted transLe c6ts ∧ c6ts[2]? = some c6action) ∧
      (chosenTriggerAt c6ts 2 30).isSome :=
  ⟨⟨by decide, by decide⟩,
    (c6_sequence_pairing c6ts 30 2 c6action (by decide) (by decide)).2
      ⟨1, by omega,
        ⟨⟨"binary_sensor.door", "binary_sensor", "off", "on", 300⟩,
          by decide, by decide, by decide, by decide⟩⟩⟩

end SequencePatterns

namespace SmartHome

/-- Characterisation of `collect_from_slot` members: the source tag is the
given one and entity/state/support come from the slot's state-day map. -/
theorem mem_collectFromSlot {m : UserActionModel} {slot : Slot} {cs : Int} {cc : ℚ}
    {src : String} {p : Prediction} (hp : p ∈ collectFromSlot m slot cs cc src) :
    p.source = src ∧ ∃ em, dlookup slot m.slot_entity_state_day_count = some em ∧
      ∃ q ∈ em, ∃ r ∈ q.2, p.entity_id = q.1 ∧ p.state = r.1 ∧ p.support = r.2 := by
  unfold collectFromSlot at hp
  cases hlook : dlookup slot m.slot_entity_state_day_count with
  | none => rw [hlook] at hp; simp at hp
  | some em =>
    rw [hlook] at hp
    rcases List.mem_flatMap.mp hp with ⟨q, hq, hq2⟩
    dsimp only at hq2
    split at hq2
    · simp at hq2
    · rcases List.mem_filterMap.mp hq2 with ⟨r, hr, hreq⟩
      split at hreq
      · cases Option.some.inj hreq
        exact ⟨rfl, em, rfl, q, hq, r, hr, rfl, rfl, rfl⟩
      · exact Option.noConfusion hreq

/-- Characterisation of `collect_global` members. -/
theorem mem_collectGlobal {m : UserActionModel} {cs : Int} {cc : ℚ}
    {src : String} {p : Prediction} (hp : p ∈ collectGlobal m cs cc src) :
    p.source = src ∧
      ∃ q ∈ m.global_entity_state_day_count, ∃ r ∈ q.2,
        p.entity_id = q.1 ∧ p.state = r.1 ∧ p.support = r.2 := by
  unfold collectGlobal at hp
  rcases List.mem_flatMap.mp hp with ⟨q, hq, hq2⟩
  dsimp only at hq2
  split at hq2
  · simp at hq2
  · rcases List.mem_filterMap.mp hq2 with ⟨r, hr, hreq⟩
    split at hreq
    · cases Option.some.inj hreq
      exact ⟨rfl, q, hq, r, hr, rfl, rfl, rfl⟩
    · exact Option.noConfusion hreq

theorem mem_map_snd_dset {K V : Type} [DecidableEq K] {m : List (K × V)} {k : K} {v y : V}
    (hy : y ∈ (dset m k v).map Prod.snd) : y = v ∨ y ∈ m.map Prod.snd := by
  rcases List.mem_map.mp hy with ⟨p, hp, hpy⟩
  rcases mem_dset_elim hp with h1 | h1
  · exact Or.inl (by rw [← hpy, h1])
  · exact Or.inr (List.mem_map.mpr ⟨p, h1, hpy⟩)

theorem mem_values_dedup_fold {l : List Prediction} {acc : List (String × Prediction)}
    {q : Prediction} (hq : q ∈ (l.foldl dedupStep acc).map Prod.snd) :
    q ∈ l ∨ q ∈ acc.map Prod.snd := by
  induction l generalizing acc with
  | nil => exact Or.inr hq
  | cons x xs ih =>
    rw [List.foldl_cons] at hq
    rcases ih hq with h1 | h1
    · exact Or.inl (List.mem_cons_of_mem _ h1)
    · unfold dedupStep at h1
      split at h1
      · rcases mem_map_snd_dset h1 with h2 | h2
        · exact Or.inl (h2 ▸ List.mem_cons_self x xs)
        · exact Or.inr h2
      · split at h1
        · rcases mem_map_snd_dset h1 with h2 | h2
          · exact Or.inl (h2 ▸ List.mem_cons_self x xs)
          · exact Or.inr h2
        · exact Or.inr h1

/-- Everything `predict` returns after sorting, per-entity deduplication and
truncation was a candidate of the winning tier. -/
theorem mem_finishPredict {l : List Prediction} {ope : Bool} {limit : Int} {p : Prediction}
    (hp : p ∈ finishPredict l ope limit) : p ∈ l := by
  unfold finishPredict at hp
  have hp2 := List.mem_of_mem_take hp
  cases ope with
  | false => simpa [sortPreds] using hp2
  | true =>
    simp only [if_pos] at hp2
    rw [sortPreds, List.mem_insertionSort] at hp2
    rcases mem_values_dedup_fold hp2 with h1 | h1
    · simpa [sortPreds] using h1
    · simp at h1

/-- When the strict slot tier is nonempty the cascade is exactly that tier. -/
theorem cascade_eq_tier1 {m : UserActionModel} {slot : Slot} {sth : Int} {cth : ℚ}
    {arf : Bool} (h : collectFromSlot m slot sth cth "time_slot" ≠ []) :
    cascadePreds m slot sth cth arf = collectFromSlot m slot sth cth "time_slot" := by
  simp [cascadePreds, h]

/-- `collect_from_slot` reads only the two slot-scoped day maps. -/
theorem collectFromSlot_congr {m m' : UserActionModel} {slot : Slot} {cs : Int} {cc : ℚ}
    {src : String} (h1 : m'.slot_entity_day_count = m.slot_entity_day_count)
    (h2 : m'.slot_entity_state_day_count = m.slot_entity_state_day_count) :
    collectFromSlot m' slot cs cc src = collectFromSlot m slot cs cc src := by
  unfold collectFromSlot
  rw [h1, h2]

end SmartHome

namespace SmartHome

/-- C5: when the strict slot tier produces at least one candidate, `predict`
is exactly the post-processing of that tier, every returned prediction
carries source `"time_slot"`, and the global counters have no influence:
any model agreeing on the two slot-scoped day maps predicts identically. -/
theorem c5_cascade_first_tier (m : UserActionModel) (when : Nat) (limit : Int)
    (minSupport : Option Int) (minConfidence : Option ℚ) (arf ope : Bool)
    (h : collectFromSlot m (slotOf when) (minSupport.getD m.min_support)
        (minConfidence.getD m.min_confidence) "time_slot" ≠ []) :
    m.predict when limit minSupport minConfidence arf ope
      = finishPredict (collectFromSlot m (slotOf when) (minSupport.getD m.min_support)
          (minConfidence.getD m.min_confidence) "time_slot") ope limit
    ∧ (∀ p ∈ m.predict when limit minSupport minConfidence arf ope, p.source = "time_slot")
    ∧ ∀ m' : UserActionModel,
        m'.slot_entity_day_count = m.slot_entity_day_count →
        m'.slot_entity_state_day_count = m.slot_entity_state_day_count →
        m'.predict when limit (some (minSupport.getD m.min_support))
            (some (minConfidence.getD m.min_confidence)) arf ope
          = m.predict when limit (some (minSupport.getD m.min_support))
            (some (minConfidence.getD m.min_confidence)) arf ope := by
  have heq : m.predict when limit minSupport minConfidence arf ope
      = finishPredict (collectFromSlot m (slotOf when) (minSupport.getD m.min_support)
          (minConfidence.getD m.min_confidence) "time_slot") ope limit := by
    unfold UserActionModel.predict
    dsimp only
    rw [cascade_eq_tier1 h]
  refine ⟨heq, ?_, ?_⟩
  · intro p hp
    rw [heq] at hp
    exact (mem_collectFromSlot (mem_finishPredict hp)).1
  · intro m' h1 h2
    have hc : collectFromSlot m' (slotOf when) (minSupport.getD m.min_support)
        (minConfidence.getD m.min_confidence) "time_slot"
        = collectFromSlot m (slotOf when) (minSupport.getD m.min_support)
          (minConfidence.getD m.min_confidence) "time_slot" :=
      collectFromSlot_congr h1 h2
    unfold UserActionModel.predict
    dsimp only [Option.getD_some]
    rw [cascade_eq_tier1 (by rw [hc]; exact h), cascade_eq_tier1 h, hc]

/-- Witness for `c5_cascade_first_tier`: `c5model`'s strict slot tier fires
for Thursday 18:00 even though its global counters carry different data. -/
theorem c5_cascade_first_tier_witness :
    c5model.predict 64800 10 none none true true
      = finishPredict (collectFromSlot c5model (slotOf 64800) 1 (qlit 1 2) "time_slot") true 10
    ∧ (∀ p ∈ c5model.predict 64800 10 none none true true, p.source = "time_slot")
    ∧ ∀ m' : UserActionModel,
        m'.slot_entity_day_count = c5model.slot_entity_day_count →
        m'.slot_entity_state_day_count = c5model.slot_entity_state_day_count →
        m'.predict 64800 10 (some 1) (some (qlit 1 2)) true true
          = c5model.predict 64800 10 (some 1) (some (qlit 1 2)) true true :=
  c5_cascade_first_tier c5model 64800 10 none none true true (by decide)

end SmartHome

namespace SmartHome

theorem charEqIffToNat (c : Char) (d : Char) : c = d ↔ c.toNat = d.toNat := by
  constructor
  · intro h; rw [h]
  · intro h; exact Char.ext (UInt32.ext h)

theorem isWhitespaceIffToNat (c : Char) : c.isWhitespace = true ↔
    (c.toNat = 32 ∨ c.toNat = 9 ∨ c.toNat = 13 ∨ c.toNat = 10) := by
  simp only [Char.isWhitespace, Bool.or_eq_true, decide_eq_true_eq]
  rw [charEqIffToNat c ' ', charEqIffToNat c '\t', charEqIffToNat c '\r', charEqIffToNat c '\n']
  simp only [show (' ' : Char).toNat = 32 from rfl, show ('\t' : Char).toNat = 9 from rfl,
    show ('\r' : Char).toNat = 13 from rfl, show ('\n' : Char).toNat = 10 from rfl]
  tauto

/-- ASCII lowering neither creates nor destroys whitespace. -/
theorem isWhitespace_toLower (c : Char) : (Char.toLower c).isWhitespace = c.isWhitespace := by
  show (if c.toNat ≥ 65 ∧ c.toNat ≤ 90 then Char.ofNat (c.toNat + 32) else c).isWhitespace
      = c.isWhitespace
  by_cases h : c.toNat ≥ 65 ∧ c.toNat ≤ 90
  · rw [if_pos h]
    have key : ∀ k : Nat, k < 91 → 65 ≤ k → (Char.ofNat (k + 32)).isWhitespace = false := by
      decide
    have h2 : (Char.ofNat (c.toNat + 32)).isWhitespace = false :=
      key c.toNat (by omega) (by omega)
    have h1 : c.isWhitespace = false := by
      rw [← Bool.not_eq_true]
      intro hw
      rcases (isWhitespaceIffToNat c).mp hw with hk | hk | hk | hk <;> omega
    rw [h1, h2]
  · rw [if_neg h]

theorem toLowerIdem (c : Char) : Char.toLower (Char.toLower c) = Char.toLower c := by
  show Char.toLower (if c.toNat ≥ 65 ∧ c.toNat ≤ 90 then Char.ofNat (c.toNat + 32) else c)
      = (if c.toNat ≥ 65 ∧ c.toNat ≤ 90 then Char.ofNat (c.toNat + 32) else c)
  by_cases h : c.toNat ≥ 65 ∧ c.toNat ≤ 90
  · rw [if_pos h]
    have key : ∀ k : Nat, k < 91 → 65 ≤ k →
        Char.toLower (Char.ofNat (k + 32)) = Char.ofNat (k + 32) := by decide
    exact key c.toNat (by omega) (by omega)
  · rw [if_neg h]
    show (if c.toNat ≥ 65 ∧ c.toNat ≤ 90 then Char.ofNat (c.toNat + 32) else c) = c
    rw [if_neg h]

theorem dropWhile_rdropWhile_self {p : Char → Bool} {m : List Char}
    (hm : m.dropWhile p = m) : (m.rdropWhile p).dropWhile p = m.rdropWhile p := by
  rcases List.rdropWhile_prefix (l := m) (p := p) with ⟨t, ht⟩
  apply List.dropWhile_eq_self_iff.mpr
  intro hl
  have hlm : 0 < m.length := by
    rw [← ht, List.length_append]
    omega
  have hlen : 0 < (List.rdropWhile p m ++ t).length := by
    rw [List.length_append]
    omega
  have h1 : (List.rdropWhile p m ++ t)[0] = (List.rdropWhile p m)[0] :=
    List.getElem_append_left hl
  simp only [ht] at h1
  have hget : (List.rdropWhile p m).get ⟨0, hl⟩ = m.get ⟨0, hlm⟩ := by
    simp only [List.get_eq_getElem]
    exact h1.symm
  rw [hget]
  exact List.dropWhile_eq_self_iff.mp hm hlm

theorem dropWhile_self_of_dropWhile {p : Char → Bool} {l : List Char} :
    (l.dropWhile p).dropWhile p = l.dropWhile p := by
  cases hl : l.dropWhile p with
  | nil => rfl
  | cons x xs =>
    have hx : p x = false := by
      have := List.head_dropWhile_not p l (by rw [hl]; exact List.cons_ne_nil x xs)
      simp only [hl, List.head_cons] at this
      exact this
    rw [List.dropWhile_cons, hx]
    simp

theorem pyStrip_idem (s : String) : pyStrip (pyStrip s) = pyStrip s := by
  cases s with
  | mk l =>
    apply congrArg String.mk
    show ((((l.dropWhile Char.isWhitespace).rdropWhile
        Char.isWhitespace).dropWhile Char.isWhitespace)).rdropWhile Char.isWhitespace
      = (l.dropWhile Char.isWhitespace).rdropWhile Char.isWhitespace
    rw [dropWhile_rdropWhile_self dropWhile_self_of_dropWhile]
    exact List.rdropWhile_idempotent _ _

theorem dropWhile_map_toLower (m : List Char) :
    (m.map Char.toLower).dropWhile Char.isWhitespace
      = (m.dropWhile Char.isWhitespace).map Char.toLower := by
  rw [List.dropWhile_map]
  have hcomp : (Char.isWhitespace ∘ Char.toLower) = Char.isWhitespace := by
    funext c
    exact isWhitespace_toLower c
  rw [hcomp]

theorem rdropWhile_map_toLower (m : List Char) :
    (m.map Char.toLower).rdropWhile Char.isWhitespace
      = (m.rdropWhile Char.isWhitespace).map Char.toLower := by
  show ((m.map Char.toLower).reverse.dropWhile Char.isWhitespace).reverse
      = ((m.reverse.dropWhile Char.isWhitespace).reverse).map Char.toLower
  rw [← List.map_reverse, dropWhile_map_toLower, List.map_reverse]

theorem pyStrip_pyLower (s : String) : pyStrip (pyLower s) = pyLower (pyStrip s) := by
  cases s with
  | mk l =>
    apply congrArg String.mk
    show ((l.map Char.toLower).dropWhile Char.isWhitespace).rdropWhile Char.isWhitespace
        = ((l.dropWhile Char.isWhitespace).rdropWhile Char.isWhitespace).map Char.toLower
    rw [dropWhile_map_toLower, rdropWhile_map_toLower]

theorem pyLower_idem (s : String) : pyLower (pyLower s) = pyLower s := by
  cases s with
  | mk l =>
    apply congrArg String.mk
    show (l.map Char.toLower).map Char.toLower = l.map Char.toLower
    rw [List.map_map]
    apply List.map_congr_left
    intro c _
    exact toLowerIdem c

/-- Normalisation is idempotent: a normalised state is already trimmed and
lower-cased. -/
theorem normState_idem (s : String) : normState (normState s) = normState s := by
  unfold normState
  rw [pyStrip_pyLower, pyLower_idem, pyStrip_idem]

end SmartHome

namespace SmartHome

theorem stateKeys2_dupd {V : Type} {m : List (String × List (String × V))} {k1 k2 : String}
    {d : V} {f : V → V} {Q : String → Prop}
    (h : ∀ q ∈ m, ∀ r ∈ q.2, Q r.1) (hk : Q k2) :
    ∀ q ∈ dupd m k1 [] (fun sm => dupd sm k2 d f), ∀ r ∈ q.2, Q r.1 := by
  intro q hq r hr
  have hold : ∀ r' ∈ (dlookup k1 m).getD [], Q (r' : String × V).1 := by
    cases hlook : dlookup k1 m with
    | none => simp [hlook]
    | some v =>
      intro r' hr'
      exact h (k1, v) (dlookup_some_mem hlook) r' (by simpa [hlook] using hr')
  rcases mem_dset_elim hq with h1 | h1
  · rw [h1] at hr
    rcases mem_dset_elim hr with h2 | h2
    · rw [h2]
      exact hk
    · exact hold r h2
  · exact h q h1 r hr

theorem stateKeys3_dupd {V : Type} {m : List (Slot × List (String × List (String × V)))}
    {k1 : Slot} {k2 k3 : String} {d : V} {f : V → V} {Q : String → Prop}
    (h : ∀ p ∈ m, ∀ q ∈ p.2, ∀ r ∈ q.2, Q r.1) (hk : Q k3) :
    ∀ p ∈ dupd m k1 [] (fun em => dupd em k2 [] (fun sm => dupd sm k3 d f)),
      ∀ q ∈ p.2, ∀ r ∈ q.2, Q r.1 := by
  intro p hp
  have hold : ∀ q ∈ (dlookup k1 m).getD [], ∀ r ∈ (q : String × List (String × V)).2, Q r.1 := by
    cases hlook : dlookup k1 m with
    | none => simp [hlook]
    | some v =>
      intro q hq r hr
      exact h (k1, v) (dlookup_some_mem hlook) q (by simpa [hlook] using hq) r hr
  rcases mem_dset_elim hp with h1 | h1
  · rw [h1]
    exact stateKeys2_dupd hold hk
  · exact h p h1

/-- Every state key accumulated by the `fit` loop is the normalisation of
some processed event's `to_state`. -/
theorem fitFold_state_keys (evs : List ActionEvent) (Q : String → Prop) :
    ∀ acc : UserActionModel × FitSeen,
      (∀ p ∈ acc.1.slot_entity_state_count, ∀ q ∈ p.2, ∀ r ∈ q.2, Q r.1) →
      (∀ p ∈ acc.2.slot_entity_state_days, ∀ q ∈ p.2, ∀ r ∈ q.2, Q r.1) →
      (∀ q ∈ acc.1.global_entity_state_count, ∀ r ∈ q.2, Q r.1) →
      (∀ q ∈ acc.2.global_entity_state_days, ∀ r ∈ q.2, Q r.1) →
      (∀ ev ∈ evs, Q (normState ev.to_state)) →
      (∀ p ∈ (evs.foldl fitStep acc).1.slot_entity_state_count, ∀ q ∈ p.2, ∀ r ∈ q.2, Q r.1) ∧
      (∀ p ∈ (evs.foldl fitStep acc).2.slot_entity_state_days, ∀ q ∈ p.2, ∀ r ∈ q.2, Q r.1) ∧
      (∀ q ∈ (evs.foldl fitStep acc).1.global_entity_state_count, ∀ r ∈ q.2, Q r.1) ∧
      (∀ q ∈ (evs.foldl fitStep acc).2.global_entity_state_days, ∀ r ∈ q.2, Q r.1) := by
  induction evs with
  | nil =>
    intro acc h1 h2 h3 h4 _
    exact ⟨h1, h2, h3, h4⟩
  | cons ev rest ih =>
    intro acc h1 h2 h3 h4 hev
    rw [List.foldl_cons]
    have hQev : Q (normState ev.to_state) := hev ev (List.mem_cons_self ev rest)
    have hrest : ∀ e ∈ rest, Q (normState e.to_state) :=
      fun e he => hev e (List.mem_cons_of_mem _ he)
    apply ih (fitStep acc ev) _ _ _ _ hrest
    all_goals
      unfold fitStep
      dsimp only
      split
    · exact h1
    · exact stateKeys3_dupd h1 hQev
    · exact h2
    · exact stateKeys3_dupd h2 hQev
    · exact h3
    · exact stateKeys2_dupd h3 hQev
    · exact h4
    · exact stateKeys2_dupd h4 hQev

end SmartHome

namespace SmartHome

/-- Every cascade output came from one of the two collectors. -/
theorem mem_cascadePreds {m : UserActionModel} {slot : Slot} {sth : Int} {cth : ℚ}
    {arf : Bool} {p : Prediction} (hp : p ∈ cascadePreds m slot sth cth arf) :
    (∃ cs cc src, p ∈ collectFromSlot m slot cs cc src) ∨
      (∃ cs cc src, p ∈ collectGlobal m cs cc src) := by
  unfold cascadePreds at hp
  dsimp only at hp
  split at hp
  all_goals try split at hp
  all_goals try split at hp
  all_goals
    first
      | exact Or.inl ⟨_, _, _, hp⟩
      | exact Or.inr ⟨_, _, _, hp⟩

/-- Every state key of a model trained by `fit` is the normalisation of some
input event's `to_state`. -/
theorem fit_state_keys (m0 : UserActionModel) (evs : List ActionEvent) :
    ∀ st, isStateKeyIn (m0.fit evs) st → ∃ ev ∈ evs, st = normState ev.to_state := by
  intro st hst
  have hfold := fitFold_state_keys evs (fun s => ∃ ev ∈ evs, s = normState ev.to_state)
    (clearedModel m0, emptySeen)
    (by intro p hp; simp [clearedModel] at hp)
    (by intro p hp; simp [emptySeen] at hp)
    (by intro q hq; simp [clearedModel] at hq)
    (by intro q hq; simp [emptySeen] at hq)
    (fun ev hev => ⟨ev, hev, rfl⟩)
  rcases hst with h | h | h | h
  · rcases h with ⟨p, hp, q, hq, r, hr, hkey⟩
    rw [← hkey]
    exact hfold.1 p hp q hq r hr
  · rcases h with ⟨p, hp, q, hq, r, hr, hkey⟩
    rcases List.mem_map.mp hp with ⟨p0, hp0, hpe⟩
    rw [← hpe] at hq
    rcases List.mem_map.mp hq with ⟨q0, hq0, hqe⟩
    rw [← hqe] at hr
    rcases List.mem_map.mp hr with ⟨r0, hr0, hre⟩
    rw [← hkey, ← hre]
    exact hfold.2.1 p0 hp0 q0 hq0 r0 hr0
  · rcases h with ⟨q, hq, r, hr, hkey⟩
    rw [← hkey]
    exact hfold.2.2.1 q hq r hr
  · rcases h with ⟨q, hq, r, hr, hkey⟩
    rcases List.mem_map.mp hq with ⟨q0, hq0, hqe⟩
    rw [← hqe] at hr
    rcases List.mem_map.mp hr with ⟨r0, hr0, hre⟩
    rw [← hkey, ← hre]
    exact hfold.2.2.2 q0 hq0 r0 hr0

end SmartHome

namespace SmartHome

/-- C10: every state key stored by `fit` — and hence the `state` field of
every prediction of a fitted model — is the trimmed lower-cased form of some
input event's `to_state`, and is itself normalisation-stable (no mixed case,
no padding). -/
theorem c10_states_normalised (m0 : UserActionModel) (evs : List ActionEvent) :
    (∀ st, isStateKeyIn (m0.fit evs) st → ∃ ev ∈ evs, st = normState ev.to_state)
    ∧ ∀ (when : Nat) (limit : Int) (ms : Option Int) (mc : Option ℚ) (arf ope : Bool),
        ∀ p ∈ (m0.fit evs).predict when limit ms mc arf ope,
          (∃ ev ∈ evs, p.state = normState ev.to_state) ∧ normState p.state = p.state := by
  refine ⟨fit_state_keys m0 evs, ?_⟩
  intro when limit ms mc arf ope p hp
  have hmem : p ∈ cascadePreds (m0.fit evs) (slotOf when)
      (ms.getD (m0.fit evs).min_support) (mc.getD (m0.fit evs).min_confidence) arf := by
    unfold UserActionModel.predict at hp
    dsimp only at hp
    exact mem_finishPredict hp
  have hkey : isStateKeyIn (m0.fit evs) p.state := by
    rcases mem_cascadePreds hmem with ⟨cs, cc, src, hc⟩ | ⟨cs, cc, src, hc⟩
    · rcases mem_collectFromSlot hc with ⟨_, em, hlook, q, hq, r, hr, _, hst, _⟩
      exact Or.inr (Or.inl ⟨(slotOf when, em), dlookup_some_mem hlook, q, hq, r, hr, hst.symm⟩)
    · rcases mem_collectGlobal hc with ⟨_, q, hq, r, hr, _, hst, _⟩
      exact Or.inr (Or.inr (Or.inr ⟨q, hq, r, hr, hst.symm⟩))
  rcases fit_state_keys m0 evs p.state hkey with ⟨ev, hev, heq⟩
  exact ⟨⟨ev, hev, heq⟩, by rw [heq, normState_idem]⟩

/-- Witness for `c10_states_normalised`: the prediction a model fitted on a
padded mixed-case `" On "` event returns carries the normalised state. -/
theorem c10_states_normalised_witness :
    (∃ ev ∈ c10events, "on" = normState ev.to_state) ∧ normState "on" = "on" :=
  have hp := (c10_states_normalised emptyModel c10events).2 64800 10 none none true true
    ⟨"light.hall", "on", 1, 1, "time_slot_relaxed_support"⟩ (by decide)
  ⟨hp.1, hp.2⟩

end SmartHome

namespace SmartHome

theorem scoreLe_refl (a : ℚ × Int) : scoreLe a a := Or.inr ⟨rfl, le_refl _⟩

theorem scoreLt_le {a b : ℚ × Int} (h : scoreLt a b) : scoreLe a b := by
  rcases h with h | ⟨h1, h2⟩
  · exact Or.inl h
  · exact Or.inr ⟨h1, le_of_lt h2⟩

theorem scoreLe_trans {a b c : ℚ × Int} (h1 : scoreLe a b) (h2 : scoreLe b c) : scoreLe a c := by
  rcases h1 with h1 | ⟨e1, l1⟩ <;> rcases h2 with h2 | ⟨e2, l2⟩
  · exact Or.inl (lt_trans h1 h2)
  · exact Or.inl (e2 ▸ h1)
  · exact Or.inl (e1 ▸ h2)
  · exact Or.inr ⟨e1.trans e2, le_trans l1 l2⟩

theorem scoreLe_of_not_lt {a b : ℚ × Int} (h : ¬ scoreLt b a) : scoreLe a b := by
  unfold scoreLt at h
  push_neg at h
  rcases lt_trichotomy a.1 b.1 with h1 | h1 | h1
  · exact Or.inl h1
  · exact Or.inr ⟨h1, h.2 h1.symm⟩
  · exact absurd h1 (not_lt.mpr h.1)

theorem mem_dset_self {K V : Type} [DecidableEq K] (m : List (K × V)) (k : K) (v : V) :
    (k, v) ∈ dset m k v := by
  induction m with
  | nil => simp [dset]
  | cons kv rest ih =>
    by_cases h : kv.1 = k
    · simp [dset, h]
    · simp only [dset, if_neg h]
      exact List.mem_cons_of_mem _ ih

theorem mem_dset_of_ne {K V : Type} [DecidableEq K] {m : List (K × V)} {p : K × V}
    (hp : p ∈ m) {k : K} (hne : p.1 ≠ k) (v : V) : p ∈ dset m k v := by
  induction m with
  | nil => simp at hp
  | cons kv rest ih =>
    by_cases h : kv.1 = k
    · simp only [dset, if_pos h]
      rcases List.mem_cons.mp hp with h1 | h1
      · exact absurd (h1 ▸ h) hne
      · exact List.mem_cons_of_mem _ h1
    · simp only [dset, if_neg h]
      rcases List.mem_cons.mp hp with h1 | h1
      · exact h1 ▸ List.mem_cons_self kv _
      · exact List.mem_cons_of_mem _ (ih h1)

theorem mem_dset_iff_of_nodup {K V : Type} [DecidableEq K] {m : List (K × V)}
    (hn : (m.map Prod.fst).Nodup) {p : K × V} {k : K} {v : V} :
    p ∈ dset m k v ↔ p = (k, v) ∨ (p ∈ m ∧ p.1 ≠ k) := by
  constructor
  · intro hp
    induction m with
    | nil =>
      simp only [dset] at hp
      exact Or.inl (by simpa using hp)
    | cons kv rest ih =>
      by_cases h : kv.1 = k
      · simp only [dset, if_pos h] at hp
        rcases List.mem_cons.mp hp with h1 | h1
        · exact Or.inl h1
        · refine Or.inr ⟨List.mem_cons_of_mem _ h1, ?_⟩
          intro he
          have : p.1 ∈ rest.map Prod.fst := List.mem_map.mpr ⟨p, h1, rfl⟩
          simp only [List.map_cons, List.nodup_cons] at hn
          exact hn.1 (h ▸ he ▸ this)
      · simp only [dset, if_neg h] at hp
        rcases List.mem_cons.mp hp with h1 | h1
        · exact Or.inr ⟨h1 ▸ List.mem_cons_self kv rest, h1 ▸ h⟩
        · rcases ih (by simpa using hn.of_cons) h1 with h2 | h2
          · exact Or.inl h2
          · exact Or.inr ⟨List.mem_cons_of_mem _ h2.1, h2.2⟩
  · intro hp
    rcases hp with h1 | ⟨h1, h2⟩
    · exact h1 ▸ mem_dset_self m k v
    · exact mem_dset_of_ne h1 h2 v

end SmartHome

namespace SmartHome

theorem dedupStep_keys_nodup {acc : List (String × Prediction)} {x : Prediction}
    (h1 : (acc.map Prod.fst).Nodup) : ((dedupStep acc x).map Prod.fst).Nodup := by
  unfold dedupStep
  cases dlookup x.entity_id acc with
  | none => exact nodup_keys_dset _ _ h1
  | some current =>
    dsimp only
    by_cases hlt : scoreLt (predScore current) (predScore x)
    · rw [if_pos hlt]
      exact nodup_keys_dset _ _ h1
    · rw [if_neg hlt]
      exact h1

theorem dedupStep_entOk {acc : List (String × Prediction)} {x : Prediction}
    (h2 : ∀ kv ∈ acc, (kv : String × Prediction).2.entity_id = kv.1) :
    ∀ kv ∈ dedupStep acc x, (kv : String × Prediction).2.entity_id = kv.1 := by
  intro kv hkv
  unfold dedupStep at hkv
  rcases hlook : dlookup x.entity_id acc with _ | current
  all_goals rw [hlook] at hkv
  all_goals dsimp only at hkv
  case none =>
    rcases mem_dset_elim hkv with h | h
    · rw [h]
    · exact h2 kv h
  case some =>
    by_cases hlt : scoreLt (predScore current) (predScore x)
    · rw [if_pos hlt] at hkv
      rcases mem_dset_elim hkv with h | h
      · rw [h]
      · exact h2 kv h
    · rw [if_neg hlt] at hkv
      exact h2 kv hkv

theorem dedupStep_memOk {acc : List (String × Prediction)} {x : Prediction}
    {processed : List Prediction}
    (h3 : ∀ kv ∈ acc, (kv : String × Prediction).2 ∈ processed) :
    ∀ kv ∈ dedupStep acc x, (kv : String × Prediction).2 ∈ processed ++ [x] := by
  intro kv hkv
  unfold dedupStep at hkv
  rcases hlook : dlookup x.entity_id acc with _ | current
  all_goals rw [hlook] at hkv
  all_goals dsimp only at hkv
  case none =>
    rcases mem_dset_elim hkv with h | h
    · rw [h]
      simp
    · exact List.mem_append_left _ (h3 kv h)
  case some =>
    by_cases hlt : scoreLt (predScore current) (predScore x)
    · rw [if_pos hlt] at hkv
      rcases mem_dset_elim hkv with h | h
      · rw [h]
        simp
      · exact List.mem_append_left _ (h3 kv h)
    · rw [if_neg hlt] at hkv
      exact List.mem_append_left _ (h3 kv hkv)

theorem dedupStep_maxOk {acc : List (String × Prediction)} {x : Prediction}
    {processed : List Prediction} (hn : (acc.map Prod.fst).Nodup)
    (h4 : ∀ kv ∈ acc, ∀ q ∈ processed,
      (q : Prediction).entity_id = (kv : String × Prediction).1 →
      scoreLe (predScore q) (predScore kv.2))
    (h5 : ∀ q ∈ processed, ∃ kv ∈ acc, (kv : String × Prediction).1 = (q : Prediction).entity_id) :
    ∀ kv ∈ dedupStep acc x, ∀ q ∈ processed ++ [x],
      (q : Prediction).entity_id = (kv : String × Prediction).1 →
      scoreLe (predScore q) (predScore kv.2) := by
  intro kv hkv q hq hqent
  unfold dedupStep at hkv
  cases hlook : dlookup x.entity_id acc with
  | none =>
    rw [hlook] at hkv
    dsimp only at hkv
    have hxk : x.entity_id ∉ acc.map Prod.fst := dlookup_eq_none_iff.mp hlook
    rcases (mem_dset_iff_of_nodup hn).mp hkv with hkv1 | ⟨hkv1, hkv2⟩
    · subst hkv1
      rcases List.mem_append.mp hq with hq1 | hq1
      · rcases h5 q hq1 with ⟨kv0, hkv0, hkey⟩
        exact absurd (List.mem_map.mpr ⟨kv0, hkv0, hkey.trans hqent⟩) hxk
      · rw [List.mem_singleton.mp hq1]
        exact scoreLe_refl _
    · rcases List.mem_append.mp hq with hq1 | hq1
      · exact h4 kv hkv1 q hq1 hqent
      · rw [List.mem_singleton.mp hq1] at hqent
        exact absurd hqent.symm (by simpa using hkv2)
  | some current =>
    rw [hlook] at hkv
    dsimp only at hkv
    have hcur : (x.entity_id, current) ∈ acc := dlookup_some_mem hlook
    by_cases hlt : scoreLt (predScore current) (predScore x)
    · rw [if_pos hlt] at hkv
      rcases (mem_dset_iff_of_nodup hn).mp hkv with hkv1 | ⟨hkv1, hkv2⟩
      · subst hkv1
        rcases List.mem_append.mp hq with hq1 | hq1
        · exact scoreLe_trans (h4 (x.entity_id, current) hcur q hq1 hqent) (scoreLt_le hlt)
        · rw [List.mem_singleton.mp hq1]
          exact scoreLe_refl _
      · rcases List.mem_append.mp hq with hq1 | hq1
        · exact h4 kv hkv1 q hq1 hqent
        · rw [List.mem_singleton.mp hq1] at hqent
          exact absurd hqent.symm (by simpa using hkv2)
    · rw [if_neg hlt] at hkv
      rcases List.mem_append.mp hq with hq1 | hq1
      · exact h4 kv hkv q hq1 hqent
      · rw [List.mem_singleton.mp hq1] at hqent
        have hkv2 : dlookup kv.1 acc = some kv.2 := dlookup_of_mem_of_nodup hn (by simpa using hkv)
        rw [← hqent] at hkv2
        rw [hlook] at hkv2
        have hxc : kv.2 = current := (Option.some.inj hkv2).symm
        rw [List.mem_singleton.mp hq1, hxc]
        exact scoreLe_of_not_lt hlt

theorem dedupStep_covOk {acc : List (String × Prediction)} {x : Prediction}
    {processed : List Prediction}
    (h5 : ∀ q ∈ processed, ∃ kv ∈ acc, (kv : String × Prediction).1 = (q : Prediction).entity_id) :
    ∀ q ∈ processed ++ [x], ∃ kv ∈ dedupStep acc x,
      (kv : String × Prediction).1 = (q : Prediction).entity_id := by
  intro q hq
  unfold dedupStep
  rcases hlook : dlookup x.entity_id acc with _ | current
  all_goals dsimp only
  case none =>
    have hxk : x.entity_id ∉ acc.map Prod.fst := dlookup_eq_none_iff.mp hlook
    rcases List.mem_append.mp hq with hq1 | hq1
    · rcases h5 q hq1 with ⟨kv0, hkv0, hkey⟩
      refine ⟨kv0, mem_dset_of_ne hkv0 ?_ x, hkey⟩
      intro he
      exact hxk (List.mem_map.mpr ⟨kv0, hkv0, he⟩)
    · rw [List.mem_singleton.mp hq1]
      exact ⟨(x.entity_id, x), mem_dset_self _ _ _, rfl⟩
  case some =>
    by_cases hlt : scoreLt (predScore current) (predScore x)
    · rw [if_pos hlt]
      rcases List.mem_append.mp hq with hq1 | hq1
      · rcases h5 q hq1 with ⟨kv0, hkv0, hkey⟩
        by_cases he : kv0.1 = x.entity_id
        · exact ⟨(x.entity_id, x), mem_dset_self _ _ _, he ▸ hkey⟩
        · exact ⟨kv0, mem_dset_of_ne hkv0 he x, hkey⟩
      · rw [List.mem_singleton.mp hq1]
        exact ⟨(x.entity_id, x), mem_dset_self _ _ _, rfl⟩
    · rw [if_neg hlt]
      rcases List.mem_append.mp hq with hq1 | hq1
      · exact h5 q hq1
      · rw [List.mem_singleton.mp hq1]
        exact ⟨(x.entity_id, current), dlookup_some_mem hlook, rfl⟩

end SmartHome

namespace SmartHome

/-- Invariant of the `one_per_entity` deduplication fold: keys stay distinct,
each kept entry is one of the scanned candidates and score-dominates every
scanned candidate of its entity, and every scanned entity has an entry. -/
theorem dedup_fold_inv (l : List Prediction) :
    ∀ (processed : List Prediction) (acc : List (String × Prediction)),
      ((acc.map Prod.fst).Nodup) →
      (∀ kv ∈ acc, (kv : String × Prediction).2.entity_id = kv.1) →
      (∀ kv ∈ acc, (kv : String × Prediction).2 ∈ processed) →
      (∀ kv ∈ acc, ∀ q ∈ processed, (q : Prediction).entity_id = (kv : String × Prediction).1 →
        scoreLe (predScore q) (predScore kv.2)) →
      (∀ q ∈ processed, ∃ kv ∈ acc, (kv : String × Prediction).1 = (q : Prediction).entity_id) →
      (((l.foldl dedupStep acc).map Prod.fst).Nodup) ∧
      (∀ kv ∈ l.foldl dedupStep acc, (kv : String × Prediction).2.entity_id = kv.1) ∧
      (∀ kv ∈ l.foldl dedupStep acc, (kv : String × Prediction).2 ∈ processed ++ l) ∧
      (∀ kv ∈ l.foldl dedupStep acc, ∀ q ∈ processed ++ l,
        (q : Prediction).entity_id = (kv : String × Prediction).1 →
        scoreLe (predScore q) (predScore kv.2)) ∧
      (∀ q ∈ processed ++ l, ∃ kv ∈ l.foldl dedupStep acc,
        (kv : String × Prediction).1 = (q : Prediction).entity_id) := by
  induction l with
  | nil =>
    intro processed acc h1 h2 h3 h4 h5
    simp only [List.foldl_nil, List.append_nil]
    exact ⟨h1, h2, h3, h4, h5⟩
  | cons x xs ih =>
    intro processed acc h1 h2 h3 h4 h5
    rw [List.foldl_cons]
    have hstep := ih (processed ++ [x]) (dedupStep acc x)
      (dedupStep_keys_nodup h1) (dedupStep_entOk h2) (dedupStep_memOk h3)
      (dedupStep_maxOk h1 h4 h5) (dedupStep_covOk h5)
    simpa [List.append_assoc] using hstep

theorem finishPredict_true (l : List Prediction) (limit : Int) :
    finishPredict l true limit
      = (sortPreds (((sortPreds l).foldl dedupStep []).map Prod.snd)).take
          (max 1 limit).toNat := rfl

/-- C8: with `one_per_entity = true`, `predict` returns no two entries with
the same entity id, and every returned entry is a candidate of the winning
tier whose `(confidence, support)` dominates every candidate that tier
produced for the same entity. -/
theorem c8_one_per_entity (m : UserActionModel) (when : Nat) (limit : Int)
    (ms : Option Int) (mc : Option ℚ) (arf : Bool) :
    ((m.predict when limit ms mc arf true).map Prediction.entity_id).Nodup
    ∧ ∀ p ∈ m.predict when limit ms mc arf true,
        p ∈ cascadePreds m (slotOf when) (ms.getD m.min_support) (mc.getD m.min_confidence) arf
        ∧ ∀ q ∈ cascadePreds m (slotOf when) (ms.getD m.min_support)
              (mc.getD m.min_confidence) arf,
            q.entity_id = p.entity_id → scoreLe (predScore q) (predScore p) := by
  have hpred : m.predict when limit ms mc arf true
      = finishPredict (cascadePreds m (slotOf when) (ms.getD m.min_support)
          (mc.getD m.min_confidence) arf) true limit := rfl
  have hinv := dedup_fold_inv
    (sortPreds (cascadePreds m (slotOf when) (ms.getD m.min_support)
      (mc.getD m.min_confidence) arf)) [] []
    (by simp) (by simp) (by simp) (by simp) (by simp)
  rcases hinv with ⟨hn, hent, hmem, hmax, _⟩
  simp only [List.nil_append] at hmem hmax
  constructor
  · have hvals : (((sortPreds (cascadePreds m (slotOf when) (ms.getD m.min_support)
        (mc.getD m.min_confidence) arf)).foldl dedupStep []).map Prod.snd).map
          Prediction.entity_id
        = ((sortPreds (cascadePreds m (slotOf when) (ms.getD m.min_support)
            (mc.getD m.min_confidence) arf)).foldl dedupStep []).map Prod.fst := by
      rw [List.map_map]
      exact List.map_congr_left hent
    rw [hpred, finishPredict_true]
    apply List.Nodup.sublist (List.Sublist.map Prediction.entity_id (List.take_sublist _ _))
    have hperm := (List.perm_insertionSort predGe
      (((sortPreds (cascadePreds m (slotOf when) (ms.getD m.min_support)
        (mc.getD m.min_confidence) arf)).foldl dedupStep []).map Prod.snd)).map
          Prediction.entity_id
    rw [sortPreds]
    apply hperm.nodup_iff.mpr
    rw [hvals]
    exact hn
  · intro p hp
    rw [hpred, finishPredict_true] at hp
    have hp2 := List.mem_of_mem_take hp
    rw [sortPreds, List.mem_insertionSort] at hp2
    rcases List.mem_map.mp hp2 with ⟨kv, hkv, hkvp⟩
    have hpS := hmem kv hkv
    rw [hkvp] at hpS
    constructor
    · rw [sortPreds, List.mem_insertionSort] at hpS
      exact hpS
    · intro q hq hqe
      have hqS : q ∈ sortPreds (cascadePreds m (slotOf when) (ms.getD m.min_support)
          (mc.getD m.min_confidence) arf) := by
        rw [sortPreds, List.mem_insertionSort]
        exact hq
      have := hmax kv hkv q hqS (by rw [hqe, ← hkvp]; exact hent kv hkv)
      rw [hkvp] at this
      exact this

end SmartHome

namespace SmartHome

/-- Witness for `c8_one_per_entity` at a concrete model and prediction. -/
theorem c8_one_per_entity_witness :
    (⟨"light.hall", "on", 2, 1, "time_slot"⟩ : Prediction)
        ∈ cascadePreds c5model (slotOf 64800) 1 (qlit 1 2) true
    ∧ scoreLe (predScore (⟨"light.hall", "on", 2, 1, "time_slot"⟩ : Prediction))
        (predScore (⟨"light.hall", "on", 2, 1, "time_slot"⟩ : Prediction)) :=
  have h := (c8_one_per_entity c5model 64800 10 none none true).2
    ⟨"light.hall", "on", 2, 1, "time_slot"⟩ (by decide)
  ⟨h.1, h.2 ⟨"light.hall", "on", 2, 1, "time_slot"⟩ (by decide) (by decide)⟩

end SmartHome

namespace SmartHome

/-- A slot key produced by `_slot`: weekday below 7, hour below 24. -/
def SlotOk (s : Slot) : Prop :=
  ∃ w h : Nat, w < 7 ∧ h < 24 ∧ s = ((w : Int), (h : Int))

theorem slotOf_ok (ts : Nat) : SlotOk (slotOf ts) := by
  refine ⟨weekdayOf ts, hourOf ts, ?_, ?_, rfl⟩
  · exact Nat.mod_lt _ (by norm_num)
  · have h := Nat.mod_lt ts (show 0 < 86400 by norm_num)
    unfold hourOf
    omega

theorem fst_mem_dupd {K V : Type} [DecidableEq K] {m : List (K × V)} {k : K} {d : V}
    {f : V → V} {p : K × V} (hp : p ∈ dupd m k d f) : p.1 = k ∨ p ∈ m := by
  rcases mem_dset_elim hp with h | h
  · exact Or.inl (by rw [h])
  · exact Or.inr h

/-- Every slot key the `fit` loop creates satisfies `SlotOk`. -/
theorem fitFold_slot_keys (evs : List ActionEvent) :
    ∀ acc : UserActionModel × FitSeen,
      (∀ p ∈ acc.1.slot_total_actions, SlotOk p.1) →
      (∀ p ∈ acc.1.slot_entity_total_count, SlotOk p.1) →
      (∀ p ∈ acc.1.slot_entity_state_count, SlotOk p.1) →
      (∀ p ∈ acc.2.slot_entity_days, SlotOk p.1) →
      (∀ p ∈ acc.2.slot_entity_state_days, SlotOk p.1) →
      (∀ p ∈ (evs.foldl fitStep acc).1.slot_total_actions, SlotOk p.1) ∧
      (∀ p ∈ (evs.foldl fitStep acc).1.slot_entity_total_count, SlotOk p.1) ∧
      (∀ p ∈ (evs.foldl fitStep acc).1.slot_entity_state_count, SlotOk p.1) ∧
      (∀ p ∈ (evs.foldl fitStep acc).2.slot_entity_days, SlotOk p.1) ∧
      (∀ p ∈ (evs.foldl fitStep acc).2.slot_entity_state_days, SlotOk p.1) := by
  induction evs with
  | nil =>
    intro acc h1 h2 h3 h4 h5
    exact ⟨h1, h2, h3, h4, h5⟩
  | cons ev rest ih =>
    intro acc h1 h2 h3 h4 h5
    rw [List.foldl_cons]
    apply ih (fitStep acc ev)
    all_goals
      unfold fitStep
      dsimp only
      split
    · exact h1
    · intro p hp
      have hp' : p ∈ dupd acc.1.slot_total_actions (slotOf ev.timestamp) 0 (· + 1) := hp
      rcases fst_mem_dupd hp' with h | h
      · exact h ▸ slotOf_ok ev.timestamp
      · exact h1 p h
    · exact h2
    · intro p hp
      have hp' : p ∈ dupd acc.1.slot_entity_total_count (slotOf ev.timestamp) []
        (fun em => dupd em ev.entity_id 0 (· + 1)) := hp
      rcases fst_mem_dupd hp' with h | h
      · exact h ▸ slotOf_ok ev.timestamp
      · exact h2 p h
    · exact h3
    · intro p hp
      have hp' : p ∈ dupd acc.1.slot_entity_state_count (slotOf ev.timestamp) []
        (fun em => dupd em ev.entity_id []
          (fun sm => dupd sm (normState ev.to_state) 0 (· + 1))) := hp
      rcases fst_mem_dupd hp' with h | h
      · exact h ▸ slotOf_ok ev.timestamp
      · exact h3 p h
    · exact h4
    · intro p hp
      have hp' : p ∈ dupd acc.2.slot_entity_days (slotOf ev.timestamp) []
        (fun em => dupd em ev.entity_id [] (fun s => sadd s (dayKey ev.timestamp))) := hp
      rcases fst_mem_dupd hp' with h | h
      · exact h ▸ slotOf_ok ev.timestamp
      · exact h4 p h
    · exact h5
    · intro p hp
      have hp' : p ∈ dupd acc.2.slot_entity_state_days (slotOf ev.timestamp) []
        (fun em => dupd em ev.entity_id []
          (fun sm => dupd sm (normState ev.to_state) []
            (fun s => sadd s (dayKey ev.timestamp)))) := hp
      rcases fst_mem_dupd hp' with h | h
      · exact h ▸ slotOf_ok ev.timestamp
      · exact h5 p h

end SmartHome

namespace SmartHome

/-- The eight count maps touched by the `fit` loop are empty or non-empty
together: a relevant event updates all of them at once. -/
theorem fitFold_empties (evs : List ActionEvent) :
    ∀ acc : UserActionModel × FitSeen,
      ((acc.1.slot_entity_total_count = [] ∧ acc.1.slot_entity_state_count = [] ∧
        acc.1.global_entity_total_count = [] ∧ acc.1.global_entity_state_count = [] ∧
        acc.2.slot_entity_days = [] ∧ acc.2.slot_entity_state_days = [] ∧
        acc.2.global_entity_days = [] ∧ acc.2.global_entity_state_days = []) ∨
       (acc.1.slot_entity_total_count ≠ [] ∧ acc.1.slot_entity_state_count ≠ [] ∧
        acc.1.global_entity_total_count ≠ [] ∧ acc.1.global_entity_state_count ≠ [] ∧
        acc.2.slot_entity_days ≠ [] ∧ acc.2.slot_entity_state_days ≠ [] ∧
        acc.2.global_entity_days ≠ [] ∧ acc.2.global_entity_state_days ≠ [])) →
      (((evs.foldl fitStep acc).1.slot_entity_total_count = [] ∧
        (evs.foldl fitStep acc).1.slot_entity_state_count = [] ∧
        (evs.foldl fitStep acc).1.global_entity_total_count = [] ∧
        (evs.foldl fitStep acc).1.global_entity_state_count = [] ∧
        (evs.foldl fitStep acc).2.slot_entity_days = [] ∧
        (evs.foldl fitStep acc).2.slot_entity_state_days = [] ∧
        (evs.foldl fitStep acc).2.global_entity_days = [] ∧
        (evs.foldl fitStep acc).2.global_entity_state_days = []) ∨
       ((evs.foldl fitStep acc).1.slot_entity_total_count ≠ [] ∧
        (evs.foldl fitStep acc).1.slot_entity_state_count ≠ [] ∧
        (evs.foldl fitStep acc).1.global_entity_total_count ≠ [] ∧
        (evs.foldl fitStep acc).1.global_entity_state_count ≠ [] ∧
        (evs.foldl fitStep acc).2.slot_entity_days ≠ [] ∧
        (evs.foldl fitStep acc).2.slot_entity_state_days ≠ [] ∧
        (evs.foldl fitStep acc).2.global_entity_days ≠ [] ∧
        (evs.foldl fitStep acc).2.global_entity_state_days ≠ [])) := by
  induction evs with
  | nil => exact fun acc h => h
  | cons ev rest ih =>
    intro acc h
    rw [List.foldl_cons]
    apply ih (fitStep acc ev)
    unfold fitStep
    dsimp only
    split
    · exact h
    · refine Or.inr ⟨?_, ?_, ?_, ?_, ?_, ?_, ?_, ?_⟩
      all_goals exact dset_ne_nil _ _ _

end SmartHome

namespace SmartHome

/-- The two `from_dict` repair passes leave a model unchanged whenever each
repaired map is empty only if its source map is empty too. -/
theorem repairs_noop (M : UserActionModel)
    (h1 : M.slot_entity_total_count = [] → M.slot_entity_state_count = [])
    (h2 : M.global_entity_total_count = [] → M.global_entity_state_count = [])
    (h3 : M.slot_entity_day_count = [] → M.slot_entity_total_count = [])
    (h4 : M.slot_entity_state_day_count = [] → M.slot_entity_state_count = [])
    (h5 : M.global_entity_day_count = [] → M.global_entity_total_count = [])
    (h6 : M.global_entity_state_day_count = [] → M.global_entity_state_count = []) :
    backfillDayCounts (rebuildEntityTotals M) = M := by
  have g1 : (M.slot_entity_total_count.isEmpty && !M.slot_entity_state_count.isEmpty) = false := by
    rcases eq_or_ne M.slot_entity_total_count [] with he | hne
    · simp [he, h1 he]
    · simp [hne]
  have g2 : (M.global_entity_total_count.isEmpty &&
      !M.global_entity_state_count.isEmpty) = false := by
    rcases eq_or_ne M.global_entity_total_count [] with he | hne
    · simp [he, h2 he]
    · simp [hne]
  have g3 : (M.slot_entity_day_count.isEmpty && !M.slot_entity_total_count.isEmpty) = false := by
    rcases eq_or_ne M.slot_entity_day_count [] with he | hne
    · simp [he, h3 he]
    · simp [hne]
  have g4 : (M.slot_entity_state_day_count.isEmpty &&
      !M.slot_entity_state_count.isEmpty) = false := by
    rcases eq_or_ne M.slot_entity_state_day_count [] with he | hne
    · simp [he, h4 he]
    · simp [hne]
  have g5 : (M.global_entity_day_count.isEmpty &&
      !M.global_entity_total_count.isEmpty) = false := by
    rcases eq_or_ne M.global_entity_day_count [] with he | hne
    · simp [he, h5 he]
    · simp [hne]
  have g6 : (M.global_entity_state_day_count.isEmpty &&
      !M.global_entity_state_count.isEmpty) = false := by
    rcases eq_or_ne M.global_entity_state_day_count [] with he | hne
    · simp [he, h6 he]
    · simp [hne]
  have hre : rebuildEntityTotals M = M := by
    unfold rebuildEntityTotals
    simp [g1, g2]
  rw [hre]
  unfold backfillDayCounts
  simp [g3, g4, g5, g6]

end SmartHome

namespace SmartHome

/-- On a freshly fitted model both `from_dict` repair passes are no-ops. -/
theorem fit_repairs_noop (m0 : UserActionModel) (evs : List ActionEvent) :
    backfillDayCounts (rebuildEntityTotals (m0.fit evs)) = m0.fit evs := by
  have hinv := fitFold_empties evs (clearedModel m0, emptySeen)
    (Or.inl ⟨rfl, rfl, rfl, rfl, rfl, rfl, rfl, rfl⟩)
  have e1 : (m0.fit evs).slot_entity_total_count
      = (evs.foldl fitStep (clearedModel m0, emptySeen)).1.slot_entity_total_count := rfl
  have e2 : (m0.fit evs).slot_entity_state_count
      = (evs.foldl fitStep (clearedModel m0, emptySeen)).1.slot_entity_state_count := rfl
  have e3 : (m0.fit evs).global_entity_total_count
      = (evs.foldl fitStep (clearedModel m0, emptySeen)).1.global_entity_total_count := rfl
  have e4 : (m0.fit evs).global_entity_state_count
      = (evs.foldl fitStep (clearedModel m0, emptySeen)).1.global_entity_state_count := rfl
  have e5 : (m0.fit evs).slot_entity_day_count
      = (evs.foldl fitStep (clearedModel m0, emptySeen)).2.slot_entity_days.map
          (fun p => (p.1, p.2.map fun q => (q.1, (q.2.length : Int)))) := rfl
  have e6 : (m0.fit evs).slot_entity_state_day_count
      = (evs.foldl fitStep (clearedModel m0, emptySeen)).2.slot_entity_state_days.map
          (fun p => (p.1, p.2.map fun q =>
            (q.1, q.2.map fun r => (r.1, (r.2.length : Int))))) := rfl
  have e7 : (m0.fit evs).global_entity_day_count
      = (evs.foldl fitStep (clearedModel m0, emptySeen)).2.global_entity_days.map
          (fun q => (q.1, (q.2.length : Int))) := rfl
  have e8 : (m0.fit evs).global_entity_state_day_count
      = (evs.foldl fitStep (clearedModel m0, emptySeen)).2.global_entity_state_days.map
          (fun q => (q.1, q.2.map fun r => (r.1, (r.2.length : Int)))) := rfl
  rcases hinv with ⟨a1, a2, a3, a4, a5, a6, a7, a8⟩ | ⟨b1, b2, b3, b4, b5, b6, b7, b8⟩
  · apply repairs_noop
    · rw [e1, e2]; exact fun _ => a2
    · rw [e3, e4]; exact fun _ => a4
    · rw [e5, e1]; exact fun _ => a1
    · rw [e6, e2]; exact fun _ => a2
    · rw [e7, e3]; exact fun _ => a3
    · rw [e8, e4]; exact fun _ => a4
  · apply repairs_noop
    · rw [e1, e2]; exact fun h => absurd h b1
    · rw [e3, e4]; exact fun h => absurd h b3
    · rw [e5, e1]; exact fun h => absurd (by simpa using h) b5
    · rw [e6, e2]; exact fun h => absurd (by simpa using h) b6
    · rw [e7, e3]; exact fun h => absurd (by simpa using h) b7
    · rw [e8, e4]; exact fun h => absurd (by simpa using h) b8

end SmartHome

namespace SmartHome

theorem jInt?_intCast (n : Int) : jInt? (.num (n : ℚ)) = some n := by
  simp [jInt?, ratTrunc_intCast]

theorem decodeIntMap_roundtrip (m : List (String × Int)) :
    decodeIntMap (m.map fun q => (q.1, Json.num ((q.2 : ℚ)))) = some m := by
  induction m with
  | nil => rfl
  | cons q rest ih => simp [decodeIntMap, jInt?_intCast, ih]

theorem decodeStates_jOfIntMap (m : List (String × Int)) :
    decodeStates (jOfIntMap m) = some m := by
  simp [decodeStates, jOfIntMap, jObj?, decodeIntMap_roundtrip]

theorem decodeStateMap_roundtrip (m : List (String × List (String × Int))) :
    decodeStateMap (m.map fun q => (q.1, jOfIntMap q.2)) = some m := by
  induction m with
  | nil => rfl
  | cons q rest ih => simp [decodeStateMap, decodeStates_jOfIntMap, ih]

theorem decodeEntityStates_jOfStateMap (m : List (String × List (String × Int))) :
    decodeEntityStates (jOfStateMap m) = some m := by
  simp [decodeEntityStates, jOfStateMap, jObj?, decodeStateMap_roundtrip]

set_option maxRecDepth 100000 in
theorem parseSlot_encode_bounded :
    ∀ w : Nat, w < 7 → ∀ h : Nat, h < 24 →
      parseSlot? (encodeSlot ((w : Int), (h : Int))) = some ((w : Int), (h : Int)) := by
  decide

theorem parseSlot_encodeSlot {s : Slot} (h : SlotOk s) :
    parseSlot? (encodeSlot s) = some s := by
  obtain ⟨w, hr, hw, hhr, rfl⟩ := h
  exact parseSlot_encode_bounded w hw hr hhr

theorem decodeSlotMap_roundtrip {V : Type} (dv : Json → Option V) (enc : V → Json)
    (hdv : ∀ v, dv (enc v) = some v) :
    ∀ l : List (Slot × V), (∀ p ∈ l, SlotOk p.1) →
      decodeSlotMap (l.map fun p => (encodeSlot p.1, enc p.2)) dv = some l := by
  intro l
  induction l with
  | nil => intro _; rfl
  | cons p rest ih =>
    intro hok
    have h1 := parseSlot_encodeSlot (hok p (List.mem_cons_self p rest))
    have h2 := ih fun q hq => hok q (List.mem_cons_of_mem _ hq)
    simp [decodeSlotMap, h1, hdv, h2]

theorem getObjField_some_obj {kvs : List (String × Json)} {k : String}
    {l : List (String × Json)} (hk : dlookup k kvs = some (.obj l)) :
    getObjField kvs k = some l := by
  cases l with
  | nil => simp [getObjField, hk, jFalsy]
  | cons a r => simp [getObjField, hk, jFalsy, jObj?]

end SmartHome

namespace SmartHome

set_option maxHeartbeats 2000000 in
/-- `rawFromDict` recovers a model from any object that binds the thirteen
serialised fields to that model's values. -/
theorem rawFromDict_obj (L : List (String × Json)) (M : UserActionModel)
    (k1 : dlookup "min_support" L = some (.num (M.min_support : ℚ)))
    (k2 : dlookup "min_confidence" L = some (.num M.min_confidence))
    (k3 : dlookup "slot_total_actions" L
      = some (.obj (M.slot_total_actions.map fun p => (encodeSlot p.1, Json.num ((p.2 : ℚ))))))
    (k4 : dlookup "slot_entity_total_count" L
      = some (.obj (M.slot_entity_total_count.map fun p => (encodeSlot p.1, jOfIntMap p.2))))
    (k5 : dlookup "slot_entity_state_count" L
      = some (.obj (M.slot_entity_state_count.map fun p => (encodeSlot p.1, jOfStateMap p.2))))
    (k6 : dlookup "slot_entity_day_count" L
      = some (.obj (M.slot_entity_day_count.map fun p => (encodeSlot p.1, jOfIntMap p.2))))
    (k7 : dlookup "slot_entity_state_day_count" L
      = some (.obj (M.slot_entity_state_day_count.map fun p => (encodeSlot p.1, jOfStateMap p.2))))
    (k8 : dlookup "global_total_actions" L = some (.num (M.global_total_actions : ℚ)))
    (k9 : dlookup "global_entity_total_count" L
      = some (.obj (M.global_entity_total_count.map fun q => (q.1, Json.num ((q.2 : ℚ))))))
    (k10 : dlookup "global_entity_state_count" L
      = some (.obj (M.global_entity_state_count.map fun q => (q.1, jOfIntMap q.2))))
    (k11 : dlookup "global_entity_day_count" L
      = some (.obj (M.global_entity_day_count.map fun q => (q.1, Json.num ((q.2 : ℚ))))))
    (k12 : dlookup "global_entity_state_day_count" L
      = some (.obj (M.global_entity_state_day_count.map fun q => (q.1, jOfIntMap q.2))))
    (k13 : dlookup "trained_actions" L = some (.num (M.trained_actions : ℚ)))
    (hs1 : ∀ p ∈ M.slot_total_actions, SlotOk p.1)
    (hs2 : ∀ p ∈ M.slot_entity_total_count, SlotOk p.1)
    (hs3 : ∀ p ∈ M.slot_entity_state_count, SlotOk p.1)
    (hs4 : ∀ p ∈ M.slot_entity_day_count, SlotOk p.1)
    (hs5 : ∀ p ∈ M.slot_entity_state_day_count, SlotOk p.1) :
    rawFromDict (.obj L) = some M := by
  have e1 : getIntField L "min_support" 5 = some M.min_support := by
    simp [getIntField, k1, jInt?_intCast]
  have e2 : getRatField L "min_confidence" (qlit 6 10) = some M.min_confidence := by
    simp [getRatField, k2, jRat?]
  have e3 : getSlotField L "slot_total_actions" jInt? = some M.slot_total_actions := by
    rw [getSlotField, getObjField_some_obj k3]
    exact decodeSlotMap_roundtrip jInt? (fun n => Json.num ((n : ℚ))) jInt?_intCast _ hs1
  have e4 : getSlotField L "slot_entity_total_count" decodeStates
      = some M.slot_entity_total_count := by
    rw [getSlotField, getObjField_some_obj k4]
    exact decodeSlotMap_roundtrip decodeStates jOfIntMap decodeStates_jOfIntMap _ hs2
  have e5 : getSlotField L "slot_entity_state_count" decodeEntityStates
      = some M.slot_entity_state_count := by
    rw [getSlotField, getObjField_some_obj k5]
    exact decodeSlotMap_roundtrip decodeEntityStates jOfStateMap decodeEntityStates_jOfStateMap
      _ hs3
  have e6 : getSlotField L "slot_entity_day_count" decodeStates
      = some M.slot_entity_day_count := by
    rw [getSlotField, getObjField_some_obj k6]
    exact decodeSlotMap_roundtrip decodeStates jOfIntMap decodeStates_jOfIntMap _ hs4
  have e7 : getSlotField L "slot_entity_state_day_count" decodeEntityStates
      = some M.slot_entity_state_day_count := by
    rw [getSlotField, getObjField_some_obj k7]
    exact decodeSlotMap_roundtrip decodeEntityStates jOfStateMap decodeEntityStates_jOfStateMap
      _ hs5
  have e8 : getIntField L "global_total_actions" 0 = some M.global_total_actions := by
    simp [getIntField, k8, jInt?_intCast]
  have e9 : (getObjField L "global_entity_total_count").bind decodeIntMap
      = some M.global_entity_total_count := by
    rw [getObjField_some_obj k9]
    exact decodeIntMap_roundtrip _
  have e10 : (getObjField L "global_entity_state_count").bind decodeStateMap
      = some M.global_entity_state_count := by
    rw [getObjField_some_obj k10]
    exact decodeStateMap_roundtrip _
  have e11 : (getObjField L "global_entity_day_count").bind decodeIntMap
      = some M.global_entity_day_count := by
    rw [getObjField_some_obj k11]
    exact decodeIntMap_roundtrip _
  have e12 : (getObjField L "global_entity_state_day_count").bind decodeStateMap
      = some M.global_entity_state_day_count := by
    rw [getObjField_some_obj k12]
    exact decodeStateMap_roundtrip _
  have e13 : getIntField L "trained_actions" 0 = some M.trained_actions := by
    simp [getIntField, k13, jInt?_intCast]
  unfold rawFromDict
  rw [show jObj? (.obj L) = some L from rfl]
  simp only [e1, e2, e3, e4, e5, e6, e7, e8, e9, e10, e11, e12, e13, Option.some_bind]

end SmartHome

namespace SmartHome

/-- The straight parse of `to_dict` output recovers the model exactly,
provided every slot key is in the canonical `(weekday, hour)` range. -/
theorem rawFromDict_to_dict (M : UserActionModel)
    (hs1 : ∀ p ∈ M.slot_total_actions, SlotOk p.1)
    (hs2 : ∀ p ∈ M.slot_entity_total_count, SlotOk p.1)
    (hs3 : ∀ p ∈ M.slot_entity_state_count, SlotOk p.1)
    (hs4 : ∀ p ∈ M.slot_entity_day_count, SlotOk p.1)
    (hs5 : ∀ p ∈ M.slot_entity_state_day_count, SlotOk p.1) :
    rawFromDict (UserActionModel.to_dict M) = some M :=
  rawFromDict_obj _ M rfl rfl rfl rfl rfl rfl rfl rfl rfl rfl rfl rfl rfl
    hs1 hs2 hs3 hs4 hs5

end SmartHome

namespace SmartHome

/-- C4. Habit-model persistence round-trip: for every model produced by
`fit` on any event list, `from_dict (to_dict M)` succeeds and returns a model
equal to `M`; in particular its `stats()` equals `M.stats()` and its
`predict` output equals `M`'s for every argument combination. -/
theorem c4_persistence_roundtrip (m0 : UserActionModel) (evs : List ActionEvent) :
    UserActionModel.from_dict (UserActionModel.to_dict (m0.fit evs)) = some (m0.fit evs) ∧
    (UserActionModel.from_dict (UserActionModel.to_dict (m0.fit evs))).map
        UserActionModel.stats = some (UserActionModel.stats (m0.fit evs)) ∧
    ∀ (when : Nat) (limit : Int) (ms : Option Int) (mc : Option ℚ) (arf ope : Bool),
      (UserActionModel.from_dict (UserActionModel.to_dict (m0.fit evs))).map
          (fun m => m.predict when limit ms mc arf ope)
        = some ((m0.fit evs).predict when limit ms mc arf ope) := by
  have hfold := fitFold_slot_keys evs (clearedModel m0, emptySeen)
    (by intro p hp; simp [clearedModel] at hp)
    (by intro p hp; simp [clearedModel] at hp)
    (by intro p hp; simp [clearedModel] at hp)
    (by intro p hp; simp [emptySeen] at hp)
    (by intro p hp; simp [emptySeen] at hp)
  have hs1 : ∀ p ∈ (m0.fit evs).slot_total_actions, SlotOk p.1 := hfold.1
  have hs2 : ∀ p ∈ (m0.fit evs).slot_entity_total_count, SlotOk p.1 := hfold.2.1
  have hs3 : ∀ p ∈ (m0.fit evs).slot_entity_state_count, SlotOk p.1 := hfold.2.2.1
  have hs4 : ∀ p ∈ (m0.fit evs).slot_entity_day_count, SlotOk p.1 := by
    intro p hp
    have hp' : p ∈ (evs.foldl fitStep (clearedModel m0, emptySeen)).2.slot_entity_days.map
        (fun q => (q.1, q.2.map fun r => (r.1, (r.2.length : Int)))) := hp
    rcases List.mem_map.mp hp' with ⟨q, hq, he⟩
    have hfst : p.1 = q.1 := by rw [← he]
    rw [hfst]
    exact hfold.2.2.2.1 q hq
  have hs5 : ∀ p ∈ (m0.fit evs).slot_entity_state_day_count, SlotOk p.1 := by
    intro p hp
    have hp' : p ∈ (evs.foldl fitStep (clearedModel m0, emptySeen)).2.slot_entity_state_days.map
        (fun q => (q.1, q.2.map fun r =>
          (r.1, r.2.map fun s => (s.1, (s.2.length : Int))))) := hp
    rcases List.mem_map.mp hp' with ⟨q, hq, he⟩
    have hfst : p.1 = q.1 := by rw [← he]
    rw [hfst]
    exact hfold.2.2.2.2 q hq
  have hround : UserActionModel.from_dict (UserActionModel.to_dict (m0.fit evs))
      = some (m0.fit evs) := by
    unfold UserActionModel.from_dict
    rw [rawFromDict_to_dict _ hs1 hs2 hs3 hs4 hs5]
    rw [Option.map_some']
    rw [fit_repairs_noop]
  refine ⟨hround, ?_, ?_⟩
  · rw [hround]; rfl
  · intro when limit ms mc arf ope
    rw [hround]
    rfl

end SmartHome

namespace SmartHome

theorem flatMap_congr_mem {α β : Type} {l : List α} {f g : α → List β}
    (h : ∀ a ∈ l, f a = g a) : l.flatMap f = l.flatMap g := by
  induction l with
  | nil => rfl
  | cons x xs ih =>
    rw [List.flatMap_cons, List.flatMap_cons, h x (List.mem_cons_self x xs),
      ih fun a ha => h a (List.mem_cons_of_mem _ ha)]

theorem flatMap_comp_map {α β γ : Type} (f : α → β) (g : β → List γ) (l : List α) :
    (l.map f).flatMap g = l.flatMap fun x => g (f x) := by
  induction l with
  | nil => rfl
  | cons x xs ih => rw [List.map_cons, List.flatMap_cons, List.flatMap_cons, ih]

theorem perm_flatMap {α β : Type} (g : α → List β) {l l' : List α} (h : l.Perm l') :
    (l.flatMap g).Perm (l'.flatMap g) := h.flatMap_right g

/-- The grouping dict is the generic bucket fold over the validated records. -/
theorem groupByEntity_eq_bucket (l : List RawSnapshot) :
    groupByEntity l
      = (l.filterMap validSnap).foldl
          (fun acc c => dupd acc c.entity_id [] fun b => b ++ [c]) [] := by
  unfold groupByEntity
  generalize ([] : List (String × List SnapRec)) = init
  induction l generalizing init with
  | nil => rfl
  | cons x xs ih =>
    cases hx : validSnap x with
    | none =>
      rw [List.foldl_cons, List.filterMap_cons_none hx]
      rw [hx]
      exact ih init
    | some sr =>
      rw [List.foldl_cons, List.filterMap_cons_some hx, List.foldl_cons]
      rw [hx]
      exact ih _

/-- Each entry of the grouping dict holds exactly the validated records of its
entity, in input order. -/
theorem snd_groupByEntity {l : List RawSnapshot} {p : String × List SnapRec}
    (hp : p ∈ groupByEntity l) :
    p.2 = (l.filterMap validSnap).filter fun c => c.entity_id == p.1 := by
  rw [groupByEntity_eq_bucket] at hp
  have h := snd_of_mem_foldl_bucket (fun c : SnapRec => c.entity_id)
    (fun b c => b ++ [c]) [] (l.filterMap validSnap) hp
  rw [h, foldl_append_singleton, List.nil_append]

end SmartHome

namespace SmartHome

/-- Pairwise-distinct timestamps inside one entity's sorted bucket, derived
from global `(entity, timestamp)` distinctness of the validated records. -/
theorem sorted_bucket_ts_distinct (m : List RawSnapshot) (k : String)
    (hm : ((m.filterMap validSnap).map fun sr => (sr.entity_id, sr.timestamp)).Nodup) :
    List.Pairwise (fun a b : SnapRec => a.timestamp ≠ b.timestamp)
      (List.insertionSort snapLe
        ((m.filterMap validSnap).filter fun c => c.entity_id == k)) := by
  have hsub : ((m.filterMap validSnap).filter fun c => c.entity_id == k).Sublist
      (m.filterMap validSnap) := List.filter_sublist _
  have hnd2 : (((m.filterMap validSnap).filter fun c => c.entity_id == k).map
      fun sr => (sr.entity_id, sr.timestamp)).Nodup :=
    List.Nodup.sublist (hsub.map _) hm
  have hpw : List.Pairwise (fun a b : SnapRec =>
      (a.entity_id, a.timestamp) ≠ (b.entity_id, b.timestamp))
      ((m.filterMap validSnap).filter fun c => c.entity_id == k) :=
    List.pairwise_map.mp hnd2
  have hent : ∀ x ∈ (m.filterMap validSnap).filter fun c => c.entity_id == k,
      x.entity_id = k := by
    intro x hx
    simpa using (List.mem_filter.mp hx).2
  have hpw2 : List.Pairwise (fun a b : SnapRec => a.timestamp ≠ b.timestamp)
      ((m.filterMap validSnap).filter fun c => c.entity_id == k) := by
    refine hpw.imp_of_mem ?_
    intro a b ha hb hne hts
    exact hne (by rw [Prod.ext_iff]; exact ⟨by rw [hent a ha, hent b hb], hts⟩)
  exact ((List.perm_insertionSort snapLe _).pairwise_iff
    (fun h => fun e => h e.symm)).mpr hpw2

/-- With globally distinct `(entity, timestamp)` pairs, each entity's sorted
bucket is the same list for any permutation of the input. -/
theorem sortedGroup_eq (l l' : List RawSnapshot) (hperm : l.Perm l')
    (hnd : ((l.filterMap validSnap).map fun sr => (sr.entity_id, sr.timestamp)).Nodup)
    (k : String) :
    List.insertionSort snapLe ((l.filterMap validSnap).filter fun c => c.entity_id == k)
      = List.insertionSort snapLe
          ((l'.filterMap validSnap).filter fun c => c.entity_id == k) := by
  have hvperm : (l.filterMap validSnap).Perm (l'.filterMap validSnap) :=
    hperm.filterMap validSnap
  have hnd' : ((l'.filterMap validSnap).map fun sr => (sr.entity_id, sr.timestamp)).Nodup :=
    ((hvperm.map _).nodup_iff).mp hnd
  have hs1 := sorted_bucket_ts_distinct l k hnd
  have hs2 := sorted_bucket_ts_distinct l' k hnd'
  have hso1 : List.Pairwise snapLe (List.insertionSort snapLe
      ((l.filterMap validSnap).filter fun c => c.entity_id == k)) :=
    List.sorted_insertionSort snapLe _
  have hso2 : List.Pairwise snapLe (List.insertionSort snapLe
      ((l'.filterMap validSnap).filter fun c => c.entity_id == k)) :=
    List.sorted_insertionSort snapLe _
  have hlt1 : List.Pairwise (fun a b : SnapRec => a.timestamp < b.timestamp)
      (List.insertionSort snapLe
        ((l.filterMap validSnap).filter fun c => c.entity_id == k)) :=
    (hso1.and hs1).imp fun h => Nat.lt_of_le_of_ne h.1 h.2
  have hlt2 : List.Pairwise (fun a b : SnapRec => a.timestamp < b.timestamp)
      (List.insertionSort snapLe
        ((l'.filterMap validSnap).filter fun c => c.entity_id == k)) :=
    (hso2.and hs2).imp fun h => Nat.lt_of_le_of_ne h.1 h.2
  have hsp : (List.insertionSort snapLe
        ((l.filterMap validSnap).filter fun c => c.entity_id == k)).Perm
      (List.insertionSort snapLe
        ((l'.filterMap validSnap).filter fun c => c.entity_id == k)) :=
    (List.perm_insertionSort snapLe _).trans
      ((hvperm.filter _).trans (List.perm_insertionSort snapLe _).symm)
  haveI : IsAntisymm SnapRec (fun a b => a.timestamp < b.timestamp) :=
    ⟨fun a b h1 h2 => absurd (Nat.lt_trans h1 h2) (Nat.lt_irrefl _)⟩
  exact List.eq_of_perm_of_sorted hsp hlt1 hlt2

end SmartHome

namespace SmartHome

/-- Extraction as a flat map over the entity keys, with each bucket replaced
by its canonical filter form. -/
theorem action_events_canon (m : List RawSnapshot) :
    action_events_from_states m
      = ((groupByEntity m).map Prod.fst).flatMap
          (fun k => adjacentEvents k (List.insertionSort snapLe
            ((m.filterMap validSnap).filter fun c => c.entity_id == k))) := by
  unfold action_events_from_states
  rw [flatMap_comp_map]
  refine flatMap_congr_mem ?_
  intro p hp
  rw [snd_groupByEntity hp]

/-- Permuting the input permutes the entity keys of the grouping dict. -/
theorem keys_groupByEntity_perm (l l' : List RawSnapshot) (hperm : l.Perm l') :
    ((groupByEntity l).map Prod.fst).Perm ((groupByEntity l').map Prod.fst) := by
  have hvperm : (l.filterMap validSnap).Perm (l'.filterMap validSnap) :=
    hperm.filterMap validSnap
  have hk1 : ((groupByEntity l).map Prod.fst).Nodup := by
    rw [groupByEntity_eq_bucket]
    exact nodup_keys_foldl_bucket (fun c : SnapRec => c.entity_id)
      (fun b c => b ++ [c]) [] _ [] (by simp)
  have hk2 : ((groupByEntity l').map Prod.fst).Nodup := by
    rw [groupByEntity_eq_bucket]
    exact nodup_keys_foldl_bucket (fun c : SnapRec => c.entity_id)
      (fun b c => b ++ [c]) [] _ [] (by simp)
  refine (List.perm_ext_iff_of_nodup hk1 hk2).2 ?_
  intro k
  rw [groupByEntity_eq_bucket, groupByEntity_eq_bucket]
  have h1 := mem_keys_foldl_bucket (fun c : SnapRec => c.entity_id)
    (fun b c => b ++ [c]) [] (l.filterMap validSnap) [] k
  have h2 := mem_keys_foldl_bucket (fun c : SnapRec => c.entity_id)
    (fun b c => b ++ [c]) [] (l'.filterMap validSnap) [] k
  rw [h1, h2]
  simp only [List.map_nil, List.not_mem_nil, false_or]
  constructor
  · rintro ⟨c, hc, hk⟩
    exact ⟨c, hvperm.mem_iff.mp hc, hk⟩
  · rintro ⟨c, hc, hk⟩
    exact ⟨c, hvperm.mem_iff.mpr hc, hk⟩

set_option maxRecDepth 100000 in
/-- C3, counterexample to the literal claim: when two snapshots of one entity
share a timestamp, the input order decides which of the two transitions is
emitted, so a permuted input does not always give a permuted output. -/
theorem c3_counterexample :
    ¬ ∀ (l l' : List RawSnapshot), l.Perm l' →
        (action_events_from_states l).Perm (action_events_from_states l') := by
  intro h
  exact absurd (h c3dupA c3dupB (by decide)) (by decide)

/-- C3. Event extraction is order-independent — amended with the necessary
timestamp-distinctness proviso: whenever no two validated snapshots of the
same entity share a timestamp, every permutation of the input yields a
permutation of the extracted transition events. -/
theorem c3_order_independent (l l' : List RawSnapshot) (hperm : l.Perm l')
    (hnd : ((l.filterMap validSnap).map fun sr => (sr.entity_id, sr.timestamp)).Nodup) :
    (action_events_from_states l).Perm (action_events_from_states l') := by
  rw [action_events_canon l, action_events_canon l']
  refine (perm_flatMap _ (keys_groupByEntity_perm l l' hperm)).trans ?_
  have he : ∀ k ∈ (groupByEntity l').map Prod.fst,
      adjacentEvents k (List.insertionSort snapLe
        ((l.filterMap validSnap).filter fun c => c.entity_id == k))
      = adjacentEvents k (List.insertionSort snapLe
          ((l'.filterMap validSnap).filter fun c => c.entity_id == k)) :=
    fun k _ => by rw [sortedGroup_eq l l' hperm hnd k]
  exact List.Perm.of_eq (flatMap_congr_mem he)

set_option maxRecDepth 100000 in
/-- Witness: a concrete four-snapshot input with distinct timestamps and a
shuffle of it, run through the amended order-independence theorem. -/
theorem c3_order_independent_witness :
    c3distinct.Perm c3shuffled ∧
      (action_events_from_states c3distinct).Perm (action_events_from_states c3shuffled) :=
  ⟨by decide, c3_order_independent c3distinct c3shuffled (by decide) (by decide)⟩

end SmartHome
